import Mathlib

/-!
Verification of the sm-logic scheme-composition compiler.

This file is a shallow embedding of the core of the repository
(`src/util/vec3.rs`, `src/util/map3d.rs`, `src/util/mat3.rs`,
`src/util/rot.rs`, `src/connection.rs`, `src/slot.rs`, `src/scheme.rs`,
`src/bind.rs`, `src/positioner.rs`, `src/combiner.rs`,
`src/shape/mod.rs`) together with proofs about it.

Modelling conventions:
* `i32` becomes `Int`, `u32`/`usize` become `Nat` (no arithmetic in the
  verified paths comes near the 32/64-bit limits).
* Rust `HashMap` values that the code only ever iterates or looks up by
  key are modelled as association lists; iteration order of a `HashMap`
  is unspecified in Rust, the list order plays that role here.
* fallible operations (`Result`) become `Except`; reachable panics
  (`unwrap`) become `Option` with `none` for the panic.
* trait objects `Box<dyn Connection>` are modelled by their interface:
  a function `Bounds → Bounds → List (Point × Point)`.
-/

/-- `Vec3<i32>` (`src/util/vec3.rs`), used as `Point`. -/
structure Point where
  x : Int
  y : Int
  z : Int
  deriving DecidableEq

/-- `Vec3<u32>` (`src/util/vec3.rs`), used as `Bounds`. -/
structure Bounds where
  x : Nat
  y : Nat
  z : Nat
  deriving DecidableEq

instance : Add Point := ⟨fun a b => ⟨a.x + b.x, a.y + b.y, a.z + b.z⟩⟩

instance : Sub Point := ⟨fun a b => ⟨a.x - b.x, a.y - b.y, a.z - b.z⟩⟩

/-- `Bounds::cast::<i32>()`: the `u32` components reinterpreted as `i32`. -/
def Bounds.toPoint (b : Bounds) : Point := ⟨b.x, b.y, b.z⟩

/-- `is_point_in_bounds` (`src/util/mod.rs`): every coordinate lies in
`0..bound`. -/
def isPointInBounds (p : Point) (b : Bounds) : Bool :=
  decide (0 ≤ p.x) && decide (0 ≤ p.y) && decide (0 ≤ p.z) &&
  decide (p.x < (b.x : Int)) && decide (p.y < (b.y : Int)) && decide (p.z < (b.z : Int))

/-- `0..n` as `i32` values. -/
def intRange (n : Nat) : List Int :=
  (List.range n).map (fun (m : Nat) => (m : Int))

/-- All points of a box, `x` outermost / `z` innermost, exactly the loop
order used throughout `src/connection.rs`. -/
def rangePoints (b : Bounds) : List Point :=
  (List.range b.x).flatMap (fun xs =>
    (List.range b.y).flatMap (fun ys =>
      (List.range b.z).map (fun (zs : Nat) =>
        Point.mk (xs : Int) (ys : Int) (zs : Int))))

/-- The interface of the `Connection` trait (`src/connection.rs`): a pure
function from the two box sizes to a list of point-to-point pairs. -/
def Conn : Type := Bounds → Bounds → List (Point × Point)

/-- `ConnStraight::connect` (`src/connection.rs` lines 38-57): identity
pairs over the coordinate-wise minimum of the two boxes. -/
def connStraight : Conn := fun s e =>
  let sizeX := if s.x < e.x then s.x else e.x
  let sizeY := if s.y < e.y then s.y else e.y
  let sizeZ := if s.z < e.z then s.z else e.z
  (rangePoints ⟨sizeX, sizeY, sizeZ⟩).map (fun p => (p, p))

/-- `ConnDim::ranges` (`src/connection.rs` lines 237-259): on an adapted
axis the whole `0..end` range, otherwise just the point's own
coordinate (`x..(x+1)`). -/
def connDimRanges (ax ay az : Bool) (p : Point) (e : Bounds) :
    List Int × List Int × List Int :=
  (if ax then intRange e.x else [p.x],
   if ay then intRange e.y else [p.y],
   if az then intRange e.z else [p.z])

/-- `ConnDim::connect` (`src/connection.rs` lines 262-295). -/
def connDim (ax ay az : Bool) : Conn := fun s e =>
  (rangePoints s).flatMap (fun p =>
    let r := connDimRanges ax ay az p e
    r.1.flatMap (fun xe =>
      r.2.1.flatMap (fun ye =>
        r.2.2.map (fun ze => (p, (⟨xe, ye, ze⟩ : Point))))))

/-- What the `Dim` strategy does on one axis: an adapted axis fans out to
every coordinate of the end box, a non-adapted axis keeps the start
point's own coordinate, unchecked against the end box. -/
def dimAxisOk (adapt : Bool) (pc qc : Int) (eb : Nat) : Prop :=
  if adapt then 0 ≤ qc ∧ qc < (eb : Int) else qc = pc

instance (adapt : Bool) (pc qc : Int) (eb : Nat) :
    Decidable (dimAxisOk adapt pc qc eb) := by
  unfold dimAxisOk; infer_instance

/-- 3x3 integer matrix (`src/util/mat3.rs`), row-major fields `mRC`. -/
structure Mat3x3 where
  m00 : Int
  m01 : Int
  m02 : Int
  m10 : Int
  m11 : Int
  m12 : Int
  m20 : Int
  m21 : Int
  m22 : Int
  deriving DecidableEq

/-- `Mul for Mat3x3` (`src/util/mat3.rs`): `result[i][j] = Σ_k self[i][k] * rhs[k][j]`. -/
def Mat3x3.mul (a b : Mat3x3) : Mat3x3 :=
  ⟨a.m00 * b.m00 + a.m01 * b.m10 + a.m02 * b.m20,
   a.m00 * b.m01 + a.m01 * b.m11 + a.m02 * b.m21,
   a.m00 * b.m02 + a.m01 * b.m12 + a.m02 * b.m22,
   a.m10 * b.m00 + a.m11 * b.m10 + a.m12 * b.m20,
   a.m10 * b.m01 + a.m11 * b.m11 + a.m12 * b.m21,
   a.m10 * b.m02 + a.m11 * b.m12 + a.m12 * b.m22,
   a.m20 * b.m00 + a.m21 * b.m10 + a.m22 * b.m20,
   a.m20 * b.m01 + a.m21 * b.m11 + a.m22 * b.m21,
   a.m20 * b.m02 + a.m21 * b.m12 + a.m22 * b.m22⟩

/-- `Mul<Vec3<i32>> for Mat3x3` (`src/util/mat3.rs`): `result[i] = Σ_k self[i][k] * rhs[k]`. -/
def Mat3x3.mulVec (a : Mat3x3) (v : Point) : Point :=
  ⟨a.m00 * v.x + a.m01 * v.y + a.m02 * v.z,
   a.m10 * v.x + a.m11 * v.y + a.m12 * v.z,
   a.m20 * v.x + a.m21 * v.y + a.m22 * v.z⟩

/-- `quarter_sin` (`src/util/mat3.rs`): the angle is first normalized into
`0..4` with Rust `%` (truncating remainder, `Int.tmod`); on that domain
the f32 computation `sin(ang * 90 deg).round()` is exactly this table. -/
def quarterSin (ang : Int) : Int :=
  let a := (Int.tmod ang 4 + 4).tmod 4
  if a = 0 then 0 else if a = 1 then 1 else if a = 2 then 0 else -1

/-- `quarter_cos` (`src/util/mat3.rs`), same normalization as `quarterSin`. -/
def quarterCos (ang : Int) : Int :=
  let a := (Int.tmod ang 4 + 4).tmod 4
  if a = 0 then 1 else if a = 1 then 0 else if a = 2 then -1 else 0

/-- `Mat3x3::rot_x_mat` (`src/util/mat3.rs`). -/
def Mat3x3.rotXMat (ax : Int) : Mat3x3 :=
  ⟨1, 0, 0,
   0, quarterCos ax, -quarterSin ax,
   0, quarterSin ax, quarterCos ax⟩

/-- `Mat3x3::rot_y_mat` (`src/util/mat3.rs`). -/
def Mat3x3.rotYMat (ay : Int) : Mat3x3 :=
  ⟨quarterCos ay, 0, quarterSin ay,
   0, 1, 0,
   -quarterSin ay, 0, quarterCos ay⟩

/-- `Mat3x3::rot_z_mat` (`src/util/mat3.rs`). -/
def Mat3x3.rotZMat (az : Int) : Mat3x3 :=
  ⟨quarterCos az, -quarterSin az, 0,
   quarterSin az, quarterCos az, 0,
   0, 0, 1⟩

/-- `Mat3x3::rot_mat` (`src/util/mat3.rs`): `rot_z * rot_y * rot_x`
(Rust `*` is left-associative). -/
def Mat3x3.rotMat (ax ay az : Int) : Mat3x3 :=
  ((Mat3x3.rotZMat az).mul (Mat3x3.rotYMat ay)).mul (Mat3x3.rotXMat ax)

/-- `Rot` (`src/util/rot.rs`): a rotation is its matrix. -/
structure Rot where
  matrix : Mat3x3
  deriving DecidableEq

/-- `Rot::new` (`src/util/rot.rs`). -/
def Rot.new (rx ry rz : Int) : Rot := ⟨Mat3x3.rotMat rx ry rz⟩

/-- `Rot::apply` (`src/util/rot.rs` lines 100-102). -/
def Rot.apply (r : Rot) (v : Point) : Point := r.matrix.mulVec v

/-- `Rot::apply_to_rot` (`src/util/rot.rs` lines 123-127):
matrix of `self` times matrix of `rhs`. -/
def Rot.applyToRot (r rhs : Rot) : Rot := ⟨r.matrix.mul rhs.matrix⟩

/-- The 24 orthogonal rotations: all values of `Rot::new` over quarter
turns, deduplicated (the same enumeration as the `rotation_test` unit
test in `src/util/rot.rs`). -/
def rotations24 : List Rot :=
  ((List.range 4).flatMap (fun ax =>
    (List.range 4).flatMap (fun ay =>
      (List.range 4).map (fun az =>
        Rot.new (ax : Int) (ay : Int) (az : Int))))).dedup

/-- Componentwise scalar multiplication on `Vec3<i32>` (`src/util/vec3.rs`). -/
def Point.mulS (p : Point) (k : Int) : Point := ⟨p.x * k, p.y * k, p.z * k⟩

/-- Componentwise scalar addition on `Vec3<i32>` (`src/util/vec3.rs`). -/
def Point.addS (p : Point) (k : Int) : Point := ⟨p.x + k, p.y + k, p.z + k⟩

/-- Componentwise scalar subtraction on `Vec3<i32>` (`src/util/vec3.rs`). -/
def Point.subS (p : Point) (k : Int) : Point := ⟨p.x - k, p.y - k, p.z - k⟩

/-- Componentwise scalar division on `Vec3<i32>`; Rust `/` on `i32`
truncates toward zero (`Int.tdiv`). -/
def Point.divS (p : Point) (k : Int) : Point :=
  ⟨Int.tdiv p.x k, Int.tdiv p.y k, Int.tdiv p.z k⟩

/-- `Point::cast::<u32>()`/`cast::<usize>()` on a nonnegative point; the
source panics on a negative component, every use modeled here is guarded
to be nonnegative. -/
def Point.castBounds (p : Point) : Bounds := ⟨p.x.toNat, p.y.toNat, p.z.toNat⟩

/-- `Map3D<T>` (`src/util/map3d.rs`): a dense 3D array, `x` fastest. -/
structure Map3D (α : Type) where
  xSize : Nat
  ySize : Nat
  zSize : Nat
  data : List α
  deriving DecidableEq

/-- `Map3D::filled` (`src/util/map3d.rs`). -/
def Map3D.filled {α : Type} (size : Nat × Nat × Nat) (dflt : α) : Map3D α :=
  ⟨size.1, size.2.1, size.2.2, List.replicate (size.1 * size.2.1 * size.2.2) dflt⟩

/-- `Map3D::to_id` (`src/util/map3d.rs` lines 155-168). -/
def Map3D.toId {α : Type} (m : Map3D α) (pos : Nat × Nat × Nat) : Option Nat :=
  if m.xSize ≤ pos.1 ∨ m.ySize ≤ pos.2.1 ∨ m.zSize ≤ pos.2.2 then none
  else some (pos.1 + pos.2.1 * m.xSize + pos.2.2 * m.xSize * m.ySize)

/-- `Map3D::get` (`src/util/map3d.rs`); the source indexing `data[id]`
always succeeds because `data.len() = x*y*z`, here `Option` via `[·]?`. -/
def Map3D.get {α : Type} (m : Map3D α) (pos : Nat × Nat × Nat) : Option α :=
  (m.toId pos).bind (fun id => m.data[id]?)

/-- In-place update of one list cell (out of range leaves the list
unchanged). -/
def listModify {α : Type} (l : List α) (i : Nat) (f : α → α) : List α :=
  match l, i with
  | [], _ => []
  | a :: t, 0 => f a :: t
  | a :: t, n + 1 => a :: listModify t n f

/-- `map.get_mut(pos).unwrap()` followed by a mutation: the single use in
`Bind::compile` is guarded by `is_point_in_bounds`, so `to_id` is always
`some` there and the in-place mutation always happens. -/
def Map3D.modifyAt {α : Type} (m : Map3D α) (pos : Nat × Nat × Nat) (f : α → α) : Map3D α :=
  match m.toId pos with
  | none => m
  | some id => { m with data := listModify m.data id f }

/-- `SlotSector` (`src/slot.rs`). -/
structure SlotSector where
  pos : Point
  bounds : Bounds
  kind : String
  deriving DecidableEq

/-- `SlotError` (`src/slot.rs`). -/
inductive SlotError where
  | nameIsAlreadyTaken (mainSlotName subjectName comment : String)
  | outOfBounds (mainSlotName subjectName : String) (subjectSize : Bounds)
      (subjectPos : Point) (comment : String)
  deriving DecidableEq

/-- `Slot` (`src/slot.rs`); the `sectors` HashMap is an association list. -/
structure Slot where
  name : String
  kind : String
  bounds : Bounds
  shapeMap : Map3D (List Nat)
  sectors : List (String × SlotSector)
  deriving DecidableEq

/-- `Slot::new` (`src/slot.rs` lines 203-220): the empty-named sector is
the whole slot. -/
def Slot.new (name kind : String) (bounds : Bounds) (shapeMap : Map3D (List Nat)) : Slot :=
  ⟨name, kind, bounds, shapeMap, [("", ⟨⟨0, 0, 0⟩, bounds, kind⟩)]⟩

/-- `Slot::get_sector` (`src/slot.rs`). -/
def Slot.getSector (s : Slot) (n : String) : Option SlotSector :=
  (s.sectors.find? (fun e => e.1 == n)).map (fun e => e.2)

/-- `Slot::get_point` (`src/slot.rs` lines 186-191): `try_cast::<usize>`
fails exactly on a negative component. -/
def Slot.getPoint (s : Slot) (p : Point) : Option (List Nat) :=
  if 0 ≤ p.x ∧ 0 ≤ p.y ∧ 0 ≤ p.z then
    s.shapeMap.get (p.x.toNat, p.y.toNat, p.z.toNat)
  else none

/-- `Slot::bind_sector` (`src/slot.rs` lines 228-250). -/
def Slot.bindSector (s : Slot) (name : String) (sector : SlotSector) : Except SlotError Slot :=
  if name.length = 0 then
    .error (.nameIsAlreadyTaken s.name name
      "Slot sector name cannot be zero-sized, because zero sized name is already taken by the slot itself")
  else if (s.sectors.find? (fun e => e.1 == name)).isSome then
    .error (.nameIsAlreadyTaken s.name name "Sector with such name was added before")
  else
    .ok { s with sectors := s.sectors ++ [(name, sector)] }

/-- The per-list renumbering loop shared by `Slot::shape_was_removed`
(`src/slot.rs` lines 252-269) and `Scheme::delete_connections_to`
(`src/scheme.rs` lines 293-319) on the removal path (`id_offset = -1`):
indices equal to the removed one are dropped, larger ones decrease by 1. -/
def renumberRemoved (id : Nat) : List Nat → List Nat
  | [] => []
  | c :: rest =>
    if c = id then renumberRemoved id rest
    else if id < c then (c - 1) :: renumberRemoved id rest
    else c :: renumberRemoved id rest

/-- `Slot::shape_was_removed` (`src/slot.rs` lines 252-269): applied to
every point's index list of the dense map. -/
def Slot.shapeWasRemoved (s : Slot) (id : Nat) : Slot :=
  { s with shapeMap := { s.shapeMap with data := s.shapeMap.data.map (renumberRemoved id) } }

/-- `Shape` (`src/shape/mod.rs`): the `ShapeBase` capability surface
(`size`, `has_input`, `has_output`) flattened into fields, plus the
mutable outgoing-connection list and optional color. -/
structure Shape where
  hasInput : Bool
  hasOutput : Bool
  size : Bounds
  conns : List Nat
  color : Option String
  deriving DecidableEq

/-- `Scheme` (`src/scheme.rs`). -/
structure Scheme where
  shapes : List (Point × Rot × Shape)
  inputs : List Slot
  outputs : List Slot
  bounds : Bounds
  deriving DecidableEq

/-- `if a < b { a } else { b }` from `fold_coords` use in
`Scheme::calculate_bounds`. -/
def minI (a b : Int) : Int := if a < b then a else b

/-- `if a > b { a } else { b }` from `fold_coords` use in
`Scheme::calculate_bounds`. -/
def maxI (a b : Int) : Int := if b < a then a else b

/-- `fold_coords` (`src/scheme.rs` lines 459-474). -/
def foldCoords (p0 : Point) (pts : List Point) (f : Int → Int → Int) : Point :=
  pts.foldl (fun acc q => ⟨f acc.x q.x, f acc.y q.y, f acc.z q.z⟩) p0

/-- `Scheme::calculate_bounds` (`src/scheme.rs` lines 401-433), returning
`(start, size)`; `i32::MAX`/`i32::MIN` sentinels kept literally. -/
def Scheme.calculateBounds (s : Scheme) : Point × Bounds :=
  if s.shapes.length = 0 then (⟨0, 0, 0⟩, ⟨0, 0, 0⟩)
  else
    let mm := s.shapes.foldl
      (fun (acc : Point × Point) t =>
        let start := t.1
        let rot := t.2.1
        let shape := t.2.2
        let boundsEnd := start + (((rot.apply ((shape.size.toPoint.mulS 2).subS 1)).addS 1).divS 2)
        let boundsStart := start + (((rot.apply ⟨-1, -1, -1⟩).addS 1).divS 2)
        (foldCoords acc.1 [start, boundsStart, boundsEnd] minI,
         foldCoords acc.2 [start, boundsStart, boundsEnd] maxI))
      (⟨2147483647, 2147483647, 2147483647⟩, ⟨-2147483648, -2147483648, -2147483648⟩)
    (mm.1, (mm.2 - mm.1).castBounds)

/-- `Scheme::create` (`src/scheme.rs` lines 34-47): stores the shapes and
slots and caches the computed bounds. -/
def Scheme.create (shapes : List (Point × Rot × Shape)) (inputs outputs : List Slot) : Scheme :=
  let s : Scheme := ⟨shapes, inputs, outputs, ⟨0, 0, 0⟩⟩
  { s with bounds := s.calculateBounds.2 }

/-- `Scheme::disassemble` (`src/scheme.rs` lines 154-167). -/
def Scheme.disassemble (s : Scheme) (startShape : Nat) (pos : Point) (rot : Rot) :
    List (Point × Rot × Shape) × List Slot × List Slot :=
  let start := s.calculateBounds.1
  (s.shapes.map (fun t =>
      (pos + rot.apply (t.1 - start), rot.applyToRot t.2.1,
       { t.2.2 with conns := t.2.2.conns.map (fun c => c + startShape) })),
   s.inputs, s.outputs)

/-- `Scheme::delete_connections_to` (`src/scheme.rs` lines 293-319) at
`id_offset = -1`, the only offset used on the removal path relevant here
(`replace_shape` uses offset `0` and is not modeled); the in-tree
`slot.rs` revision of `shape_was_removed` fixes the `-1` offset. -/
def Scheme.deleteConnectionsTo (s : Scheme) (id : Nat) : Scheme :=
  { s with
    shapes := s.shapes.map (fun t =>
      (t.1, t.2.1, { t.2.2 with conns := renumberRemoved id t.2.2.conns })),
    inputs := s.inputs.map (fun sl => sl.shapeWasRemoved id),
    outputs := s.outputs.map (fun sl => sl.shapeWasRemoved id) }

/-- `Scheme::no_bounds_remove_shape` (`src/scheme.rs` lines 261-268). -/
def Scheme.noBoundsRemoveShape (s : Scheme) (id : Nat) : Scheme :=
  if s.shapes.length ≤ id then s
  else
    let s1 : Scheme := { s with shapes := s.shapes.eraseIdx id }
    s1.deleteConnectionsTo id

/-- `find_slot` (`src/scheme.rs` lines 441-456): the empty name selects
`DEFAULT_SLOT = "_"`, first match wins. -/
def findSlot (name : String) (slots : List Slot) : Option Slot :=
  let searchFor := if name.length = 0 then "_" else name
  slots.find? (fun sl => sl.name == searchFor)

/-- `impl Into<Scheme> for Shape` (`src/shape/mod.rs` lines 135-155):
both slot lists are driven by `has_input` alone. -/
def shapeIntoScheme (s : Shape) : Scheme :=
  let slotMap : Map3D (List Nat) := Map3D.filled (1, 1, 1) [0]
  let slot := Slot.new "_" "logic" ⟨1, 1, 1⟩ slotMap
  let input := if s.hasInput then [slot] else []
  let output := if s.hasInput then [slot] else []
  Scheme.create [(⟨0, 0, 0⟩, Rot.new 0 0 0, s)] input output


/-- The per-index renumbering law after removing unit `k`: indices below
`k` unchanged, `k` itself deleted, indices above `k` decreased by 1. -/
def renumberSpec (k : Nat) (l : List Nat) : List Nat :=
  l.filterMap (fun i => if i < k then some i else if i = k then none else some (i - 1))

/-- A small concrete scheme used to instantiate the removal law. -/
def sampleRemovalScheme : Scheme :=
  ⟨[(⟨0, 0, 0⟩, Rot.new 0 0 0, ⟨true, true, ⟨1, 1, 1⟩, [0, 1, 2], none⟩),
    (⟨1, 0, 0⟩, Rot.new 0 0 0, ⟨true, true, ⟨1, 1, 1⟩, [2, 0], none⟩),
    (⟨2, 0, 0⟩, Rot.new 0 0 0, ⟨true, false, ⟨1, 1, 1⟩, [1], none⟩)],
   [Slot.new "_" "logic" ⟨1, 1, 1⟩ ⟨1, 1, 1, [[0, 1, 2]]⟩],
   [Slot.new "_" "logic" ⟨1, 1, 1⟩ ⟨1, 1, 1, [[2]]⟩],
   ⟨3, 1, 1⟩⟩


/-- Scan for the first `/`: everything before it, and everything after
it (`none` when there is no `/`). -/
def splitFirstTokenGo : List Char → List Char × Option (List Char)
  | [] => ([], none)
  | c :: rest =>
    if c = '/' then ([], some rest)
    else
      let r := splitFirstTokenGo rest
      (c :: r.1, r.2)

/-- `split_first_token` (`src/util/mod.rs` lines 82-92): split at the
first `/`, dropping it; no `/` gives no tail. -/
def splitFirstToken (path : String) : String × Option String :=
  let r := splitFirstTokenGo path.data
  (String.mk r.1, r.2.map String.mk)

/-- `Point::cast::<usize>().tuple()` on a nonnegative point. -/
def Point.castTuple (p : Point) : Nat × Nat × Nat := (p.x.toNat, p.y.toNat, p.z.toNat)

/-- `BasicBind` (`src/bind.rs` lines 486-492). -/
structure BasicBind where
  sectorCorner : Point
  sectorSize : Bounds
  target : String
  conn : Conn

/-- `InvalidConn` (`src/bind.rs` lines 9-26). -/
inductive InvalidConn where
  | targetSchemeDoesNotExists (sector : BasicBind) (targetScheme : String)
  | targetSlotDoesNotExists (sector : BasicBind) (targetSlot : String)
  | targetSlotSectorDoesNotExists (sector : BasicBind) (targetSlot targetSlotSector : String)

/-- `SectorError` (`src/bind.rs` lines 28-40). -/
inductive SectorError where
  | nameIsAlreadyTaken (takenName : String)
  | sectorIsOutOfSlotBounds (sectorName : String) (sectorPos : Point)
      (sectorBounds : Bounds) (slotBounds : Bounds)

/-- `Bind` (`src/bind.rs` lines 62-70); named `SmBind` here because `Bind`
is taken by a core type class. -/
structure SmBind where
  name : String
  kind : String
  size : Bounds
  sectors : List (String × Point × Bounds × String)
  maps : List BasicBind

/-- `Bind::new` (`src/bind.rs` lines 83-96). -/
def SmBind.new (slotName slotKind : String) (bounds : Bounds) : SmBind :=
  ⟨slotName, slotKind, bounds, [], []⟩

/-- `Bind::add_sector` (`src/bind.rs` lines 119-154). -/
def SmBind.addSector (b : SmBind) (name : String) (corner : Point) (bounds : Bounds)
    (kind : String) : Except SectorError SmBind :=
  if (b.sectors.find? (fun e => e.1 == name)).isSome then
    .error (.nameIsAlreadyTaken name)
  else
    let start := corner
    let endP : Point := start + bounds.toPoint - (⟨1, 1, 1⟩ : Point)
    if isPointInBounds start b.size = false ∨ isPointInBounds endP b.size = false then
      .error (.sectorIsOutOfSlotBounds name corner bounds b.size)
    else
      .ok { b with sectors := b.sectors ++ [(name, corner, bounds, kind)] }

/-- `Bind::custom` (`src/bind.rs` lines 209-219). -/
def SmBind.custom (b : SmBind) (corner : Point) (size : Bounds) (target : String)
    (conn : Conn) : SmBind :=
  { b with maps := b.maps ++ [⟨corner, size, target, conn⟩] }

/-- `Bind::connect` (`src/bind.rs` lines 232-237). -/
def SmBind.connect (b : SmBind) (corner : Point) (size : Bounds) (target : String) : SmBind :=
  b.custom corner size target connStraight

/-- `Bind::connect_full` (`src/bind.rs` lines 291-299). -/
def SmBind.connectFull (b : SmBind) (target : String) : SmBind :=
  b.connect ⟨0, 0, 0⟩ b.size target

/-- `SlotSide` (`src/combiner.rs` lines 32-35). -/
inductive SlotSide where
  | input
  | output
  deriving DecidableEq

/-- `compile_get_slot` (`src/bind.rs` lines 430-484): resolve the target
path to scheme / slot / sector, each missing level its own error. -/
def compileGetSlot (sector : BasicBind) (schemes : List (String × Nat × List Slot)) :
    Except InvalidConn (Nat × Slot × SlotSector) :=
  let ts := splitFirstToken sector.target
  let targetScheme := ts.1
  let slotPath := match ts.2 with | none => "" | some s => s
  let ss := splitFirstToken slotPath
  let slotName := ss.1
  let slotSector := match ss.2 with | none => "" | some s => s
  match schemes.find? (fun en => en.1 == targetScheme) with
  | none => .error (.targetSchemeDoesNotExists sector targetScheme)
  | some entry =>
    match findSlot slotName entry.2.2 with
    | none => .error (.targetSlotDoesNotExists sector slotName)
    | some slot =>
      match slot.getSector slotSector with
      | none => .error (.targetSlotSectorDoesNotExists sector slotName slotSector)
      | some sec => .ok (entry.2.1, slot, sec)

/-- The diagnostic an entry would produce, `none` when it resolves. -/
def bindEntryErr (schemes : List (String × Nat × List Slot)) (e : BasicBind) :
    Option InvalidConn :=
  match compileGetSlot e schemes with
  | .error err => some err
  | .ok _ => none

/-- The point-to-point pair list of one Bind entry (`src/bind.rs` lines
382-395): `Input` runs the strategy from the local sector size to the
target sector size; `Output` runs it the other way around and swaps
every pair back. -/
def bindEntryPairs (side : SlotSide) (e : BasicBind) (sectorBounds : Bounds) :
    List (Point × Point) :=
  match side with
  | .input => e.conn e.sectorSize sectorBounds
  | .output => (e.conn sectorBounds e.sectorSize).map (fun pr => (pr.2, pr.1))

/-- The four bounds checks of `src/bind.rs` lines 398-404 (a pair is kept
iff none of them fails). -/
def bindPairValid (bindSize : Bounds) (e : BasicBind) (slot : Slot) (sec : SlotSector)
    (pr : Point × Point) : Bool :=
  isPointInBounds pr.1 e.sectorSize &&
  isPointInBounds (e.sectorCorner + pr.1) bindSize &&
  isPointInBounds pr.2 sec.bounds &&
  isPointInBounds (sec.pos + pr.2) slot.bounds

/-- The target units contributed by one kept pair (`src/bind.rs` lines
408-411): the target point's unit list shifted by the scheme's global
offset (`get_point(..).unwrap()` is guarded by the bounds checks). -/
def pairUnits (startShape : Nat) (slot : Slot) (sec : SlotSector)
    (pr : Point × Point) : List Nat :=
  ((slot.getPoint (pr.2 + sec.pos)).getD []).map (fun cid => cid + startShape)

/-- The per-pair map update of `src/bind.rs` lines 405-416. -/
def bindApplyPair (startShape : Nat) (slot : Slot) (sec : SlotSector) (e : BasicBind)
    (m : Map3D (List Nat)) (pr : Point × Point) : Map3D (List Nat) :=
  let fromThis := pr.1 + e.sectorCorner
  m.modifyAt fromThis.castTuple (fun cur => cur ++ pairUnits startShape slot sec pr)

/-- One iteration of the `Bind::compile` entry loop (`src/bind.rs` lines
371-417): an unresolvable entry records its single diagnostic and leaves
the map alone; a resolvable one folds its kept pairs into the map. -/
def bindCompileStep (bindSize : Bounds) (schemes : List (String × Nat × List Slot))
    (side : SlotSide) (acc : Map3D (List Nat) × List InvalidConn) (e : BasicBind) :
    Map3D (List Nat) × List InvalidConn :=
  match compileGetSlot e schemes with
  | .error err => (acc.1, acc.2 ++ [err])
  | .ok r =>
    ((bindEntryPairs side e r.2.2.bounds).foldl
      (fun m pr => if bindPairValid bindSize e r.2.1 r.2.2 pr then
          bindApplyPair r.1 r.2.1 r.2.2 e m pr
        else m) acc.1,
     acc.2)

/-- `Bind::compile` (`src/bind.rs` lines 365-427). `none` is the `unwrap`
panic when transplanting a pre-declared sector onto the result slot
fails (empty or duplicate sector name). -/
def SmBind.compile (b : SmBind) (schemes : List (String × Nat × List Slot))
    (side : SlotSide) : Option (Slot × List InvalidConn) :=
  let init : Map3D (List Nat) := Map3D.filled (b.size.x, b.size.y, b.size.z) []
  let res := b.maps.foldl (bindCompileStep b.size schemes side) (init, [])
  let slot0 := Slot.new b.name b.kind b.size res.1
  let transplanted := b.sectors.foldlM
    (fun (sl : Slot) sec =>
      (sl.bindSector sec.1 ⟨sec.2.1, sec.2.2.1, sec.2.2.2⟩).toOption) slot0
  transplanted.map (fun sl => (sl, res.2))


/-- The units a single Bind entry contributes to local point `pos`:
exactly its directionally-produced pairs that survive the four bounds
checks and land on `pos`, in order. -/
def entryContrib (bindSize : Bounds) (e : BasicBind) (slot : Slot) (sec : SlotSector)
    (startShape : Nat) (side : SlotSide) (pos : Nat × Nat × Nat) : List Nat :=
  ((bindEntryPairs side e sec.bounds).filter
    (fun pr => bindPairValid bindSize e slot sec pr &&
      decide ((pr.1 + e.sectorCorner).castTuple = pos))).flatMap
    (pairUnits startShape slot sec)

/-- A one-scheme namespace (global offset 5, one default slot whose only
point holds local unit 0), used to instantiate the Bind theorems. -/
def wNs : List (String × Nat × List Slot) :=
  [("g", (5, [Slot.new "_" "logic" ⟨1, 1, 1⟩ ⟨1, 1, 1, [[0]]⟩]))]

/-- A Bind with one unresolvable entry (missing scheme) followed by one
resolvable entry. -/
def wBind : SmBind :=
  ((SmBind.new "in" "logic" ⟨1, 1, 1⟩).connectFull "nope").connectFull "g"

/-- A single resolvable Bind entry over `wNs`. -/
def wEntry : BasicBind := ⟨⟨0, 0, 0⟩, ⟨1, 1, 1⟩, "g", connStraight⟩


/-- A single apostrophe, spliced into the diagnostic strings the source
builds with `format!`. -/
def apos : String := String.singleton (Char.ofNat 39)

/-- Rust `name.contains("/")` (the separator is a single character, so
substring containment is character containment); `String.contains`
itself is not structurally recursive, the character list is. -/
def containsSlash (s : String) : Bool := s.data.contains '/'

/-- `ConnCase` (`src/combiner.rs` lines 71-77); `from`/`to` are reserved
words in Lean, hence `fromPath`/`toPath`. -/
structure ConnCase where
  fromPath : String
  toPath : String
  connection : Conn

/-- `InvalidActs` (`src/combiner.rs` lines 15-20). -/
structure InvalidActs where
  connections : List ConnCase
  inpBindConns : List (String × InvalidConn)
  outBindConns : List (String × InvalidConn)

/-- `combiner::Error` (`src/combiner.rs` lines 37-58). -/
inductive CombinerError where
  | invalidName (invalidName tip : String)
  | nameWasAlreadyTaken (takenName tip : String)
  | passHasInvalidTarget (passName : String) (passSide : SlotSide) (tip : String)
  | noSuchScheme (name : String)

/-- `CompileError<P>` (`src/combiner.rs` lines 60-68). -/
inductive CompileError (E : Type) where
  | positionerError (e : E)
  | connectionsOverflow (affectedInputs affectedOutputs : List String) (tip : String)

/-- The `Positioner` trait surface (`src/positioner.rs` lines 15-25). -/
structure PositionerI (P E : Type) where
  setLastScheme : P → String → P
  arrange : P → List (String × Scheme) → Except E (List (String × Point × Rot × Scheme))

/-- `Combiner<P>` (`src/combiner.rs` lines 289-302). -/
structure Combiner (P : Type) where
  schemes : List (String × Scheme)
  lastScheme : Option String
  connections : List ConnCase
  positioner : P
  inputs : List SmBind
  outputs : List SmBind
  connsOverflowAllowed : Bool
  debugName : Option String

/-- `Combiner::new` (`src/combiner.rs` lines 311-324). -/
def Combiner.new {P : Type} (positioner : P) : Combiner P :=
  ⟨[], none, [], positioner, [], [], false, none⟩

/-- The tip built in `Combiner::add` for a name with a slash. -/
def addSlashTip (dbg : Option String) : String :=
  match dbg with
  | none => "Scheme name cannot contain " ++ apos ++ "/" ++ apos ++ " (slash) symbol"
  | some n => "Scheme name cannot contain " ++ apos ++ "/" ++ apos ++ " (slash) symbol (" ++
      apos ++ n ++ apos ++ ")"

/-- The tip built in `Combiner::add` for a duplicate name. -/
def addTakenTip (dbg : Option String) : String :=
  match dbg with
  | none => "Scheme with such name was already added"
  | some n => "Scheme with such name was already added to " ++ apos ++ n ++ apos

/-- `Combiner::add` (`src/combiner.rs` lines 409-439): the mutated
builder is returned alongside the `Result`. -/
def Combiner.add {P E : Type} (inst : PositionerI P E) (c : Combiner P)
    (name : String) (scheme : Scheme) : Except CombinerError Unit × Combiner P :=
  if containsSlash name then
    (.error (.invalidName name (addSlashTip c.debugName)), c)
  else if (c.schemes.find? (fun en => en.1 == name)).isNone then
    (.ok (), { c with schemes := c.schemes ++ [(name, scheme)],
                      lastScheme := some name,
                      positioner := inst.setLastScheme c.positioner name })
  else
    (.error (.nameWasAlreadyTaken name (addTakenTip c.debugName)), c)

/-- `ManualPos` (`src/positioner.rs` lines 29-34); the poses HashMap is
an association list with unique keys. -/
structure ManualPos where
  poses : List (String × Option Point × Rot)
  lastScheme : Option String
  deriving DecidableEq

/-- `ManualPos::new` (`src/positioner.rs`). -/
def ManualPos.new : ManualPos := ⟨[], none⟩

/-- `ManualPos::create_if_n_exists` (`src/positioner.rs` lines 116-123). -/
def ManualPos.createIfNExists (mp : ManualPos) (name : String) : ManualPos :=
  if (mp.poses.find? (fun en => en.1 == name)).isNone then
    { mp with poses := mp.poses ++ [(name, none, Rot.new 0 0 0)] }
  else mp

/-- `ManualPos::place` (`src/positioner.rs` lines 45-57). -/
def ManualPos.place (mp : ManualPos) (name : String) (pos : Point) : ManualPos :=
  let mp2 := mp.createIfNExists name
  { mp2 with poses := mp2.poses.map (fun en =>
      if en.1 == name then (en.1, some pos, en.2.2) else en) }

/-- `ManualPosError` (`src/positioner.rs` lines 126-130). -/
inductive ManualPosError where
  | schemeIsNotPlaced (name : String)
  | schemeHasNoPosition (name : String)
  deriving DecidableEq

/-- The single scheme name a `ManualPosError` names. -/
def positionerErrName (e : ManualPosError) : String :=
  match e with
  | .schemeIsNotPlaced n => n
  | .schemeHasNoPosition n => n

/-- The list of scheme names a `ManualPosError` carries (it always
carries exactly one). -/
def positionerErrNames (e : ManualPosError) : List String := [positionerErrName e]

/-- `ManualPos::arrange` (`src/positioner.rs` lines 139-158): the loop
early-returns on the FIRST scheme without a pose entry
(`SchemeIsNotPlaced`) or with an unset position (`SchemeHasNoPosition`);
successfully placed prefixes are accumulated. -/
def ManualPos.arrange (mp : ManualPos) :
    List (String × Scheme) → Except ManualPosError (List (String × Point × Rot × Scheme))
  | [] => .ok []
  | en :: rest =>
    match mp.poses.find? (fun q => q.1 == en.1) with
    | none => .error (.schemeIsNotPlaced en.1)
    | some q =>
      match q.2.1 with
      | none => .error (.schemeHasNoPosition en.1)
      | some pos =>
        match mp.arrange rest with
        | .error e => .error e
        | .ok tail => .ok ((en.1, pos, q.2.2, en.2) :: tail)

/-- A scheme for which `ManualPos::arrange` would fail: no pose entry at
all, or an entry whose position was never set. -/
def ManualPos.unplaced (mp : ManualPos) (name : String) : Bool :=
  match mp.poses.find? (fun q => q.1 == name) with
  | none => true
  | some q => q.2.1.isNone

/-- The `Positioner` instance of `ManualPos`
(`src/positioner.rs` lines 132-159). -/
def manualPosI : PositionerI ManualPos ManualPosError :=
  ⟨fun mp name => { mp with lastScheme := some name }, ManualPos.arrange⟩

/-- Modelled from the spec: the fixed hardware fan-out ceiling
`MAX_CONNECTIONS` is imported from `crate::util` by `src/combiner.rs`
but its defining constant is not among the provided sources; the
comment at the check site ("Check if some shape contains more than 255
connections") fixes its value at 255. -/
def MAX_CONNECTIONS : Nat := 255

/-- `get_scheme_slot` (`src/combiner.rs` lines 1155-1180). -/
def getSchemeSlot (path : String) (slots : List (String × Nat × List Slot)) :
    Option (Nat × Slot × SlotSector) :=
  let ts := splitFirstToken path
  let slotName0 := match ts.2 with | none => "" | some s => s
  let ss := splitFirstToken slotName0
  let sectorName := match ss.2 with | none => "" | some s => s
  match slots.find? (fun en => en.1 == ts.1) with
  | none => none
  | some en =>
    match findSlot ss.1 en.2.2 with
    | none => none
    | some slot => (slot.getSector sectorName).map (fun sec => (en.2.1, slot, sec))

/-- In-place list update that panics (`none`) when the index is out of
range, like Rust `&mut shapes[i]`. -/
def listSetChecked {α : Type} (l : List α) (i : Nat) (f : α → α) : Option (List α) :=
  if i < l.length then some (listModify l i f) else none

/-- `compile_connection` (`src/combiner.rs` lines 1121-1153): run the
strategy over the two sector sizes, bounds-check each pair exactly as in
`Bind::compile`, and extend every source unit with the shifted target
unit ids. -/
def compileConnection (fromT toT : Nat × Slot × SlotSector) (conn : Conn)
    (shapes : List (Point × Rot × Shape)) : Option (List (Point × Rot × Shape)) :=
  (conn fromT.2.2.bounds toT.2.2.bounds).foldlM (fun shs pr =>
    if isPointInBounds pr.1 fromT.2.2.bounds &&
       isPointInBounds (fromT.2.2.pos + pr.1) fromT.2.1.bounds &&
       isPointInBounds pr.2 toT.2.2.bounds &&
       isPointInBounds (toT.2.2.pos + pr.2) toT.2.1.bounds then
      let fromShapes := (fromT.2.1.getPoint (fromT.2.2.pos + pr.1)).getD []
      let toShapes := ((toT.2.1.getPoint (toT.2.2.pos + pr.2)).getD []).map
        (fun shapeId => toT.1 + shapeId)
      fromShapes.foldlM (fun shs2 fid =>
        listSetChecked shs2 (fromT.1 + fid) (fun t =>
          (t.1, t.2.1, { t.2.2 with conns := t.2.2.conns ++ toShapes }))) shs
    else some shs) shapes

/-- The state of `Combiner::compile` after flattening, bind compilation
and connection resolution (`src/combiner.rs` lines 1005-1061). -/
structure CoreState where
  shapes : List (Point × Rot × Shape)
  inputsMap : List (String × Nat × List Slot)
  outputsMap : List (String × Nat × List Slot)
  inputs : List Slot
  outputs : List Slot
  invalidActs : InvalidActs

/-- Steps 1-4 of `Combiner::compile` (`src/combiner.rs` lines 1005-1061):
positioner arrangement (the one `Except` error source), flattening with
running global offsets, bind compilation against the two namespaces, and
connection resolution; `none` is a propagated panic. -/
def Combiner.compileCore {P E : Type} (inst : PositionerI P E) (c : Combiner P) :
    Option (Except (CompileError E) CoreState) :=
  match inst.arrange c.positioner c.schemes with
  | .error e => some (.error (.positionerError e))
  | .ok arranged =>
    let flat := arranged.foldl
      (fun (acc : List (Point × Rot × Shape) ×
          List (String × Nat × List Slot) × List (String × Nat × List Slot)) en =>
        let startShape := acc.1.length
        let d := (en.2.2.2).disassemble startShape en.2.1 en.2.2.1
        (acc.1 ++ d.1, acc.2.1 ++ [(en.1, startShape, d.2.1)],
         acc.2.2 ++ [(en.1, startShape, d.2.2)]))
      ([], [], [])
    do
      let inputsRes ← c.inputs.mapM (fun b => b.compile flat.2.1 .input)
      let outputsRes ← c.outputs.mapM (fun b => b.compile flat.2.2 .output)
      let connRes ← c.connections.foldlM
        (fun (st : List (Point × Rot × Shape) × List ConnCase) conn =>
          match getSchemeSlot conn.fromPath flat.2.2, getSchemeSlot conn.toPath flat.2.1 with
          | some f, some t => (compileConnection f t conn.connection st.1).map (fun shs => (shs, st.2))
          | _, _ => some (st.1, st.2 ++ [conn]))
        (flat.1, [])
      some (.ok ⟨connRes.1, flat.2.1, flat.2.2,
        inputsRes.map (fun r => r.1), outputsRes.map (fun r => r.1),
        ⟨connRes.2,
         inputsRes.flatMap (fun r => r.2.map (fun x => (r.1.name, x))),
         outputsRes.flatMap (fun r => r.2.map (fun x => (r.1.name, x)))⟩⟩)

/-- `check_affected_slots` (`src/combiner.rs` lines 1077-1095): one
`scheme/slot` path per slot whose point map references an over-limit
unit (the source indexes `ovf_shapes` unconditionally; `getD false`
returns the value whenever the index is in range). -/
def checkAffectedSlots (ovf : List Bool) (slotsMap : List (String × Nat × List Slot)) :
    List String :=
  slotsMap.flatMap (fun en =>
    en.2.2.filterMap (fun slot =>
      if slot.shapeMap.data.any (fun point => point.any (fun sh => ovf.getD (en.2.1 + sh) false)) then
        some (en.1 ++ "/" ++ slot.name)
      else none))

/-- The tip built for `ConnectionsOverflow` (`src/combiner.rs` lines
1100-1111). -/
def overflowTip (dbg : Option String) : String :=
  let msg := "Some slots were connected with too much other slots. " ++
    "That resulted in connection overflow. When some shape of the scheme gets " ++
    "more than " ++ toString MAX_CONNECTIONS ++ " connections connected to it" ++ apos ++
    "s input or output it is called connections overflow. This is bad, because " ++
    "it is too buggy and, probably, it is not the thing you want. If you want " ++
    "to intentionally allow connections overflow, use `allow_conns_overflow` " ++
    "method before compilation."
  match dbg with
  | none => msg
  | some n => "Combiner " ++ apos ++ n ++ apos ++ " compilation: " ++ msg

/-- `Combiner::compile` (`src/combiner.rs` lines 1003-1118): the core
steps, then the fan-out-ceiling check unless disabled, then the final
`Scheme::create`. -/
def Combiner.compile {P E : Type} (inst : PositionerI P E) (c : Combiner P) :
    Option (Except (CompileError E) (Scheme × InvalidActs)) :=
  match Combiner.compileCore inst c with
  | none => none
  | some (.error e) => some (.error e)
  | some (.ok st) =>
    if c.connsOverflowAllowed then
      some (.ok (Scheme.create st.shapes st.inputs st.outputs, st.invalidActs))
    else
      let ovfShapes := st.shapes.map (fun t => decide (MAX_CONNECTIONS < t.2.2.conns.length))
      if ovfShapes.any (fun x => x) then
        some (.error (.connectionsOverflow
          (checkAffectedSlots ovfShapes st.inputsMap)
          (checkAffectedSlots ovfShapes st.outputsMap)
          (overflowTip c.debugName)))
      else
        some (.ok (Scheme.create st.shapes st.inputs st.outputs, st.invalidActs))

/-- A 1x1x1 two-way logic-gate-like shape for concrete combiners. -/
def sampleGate : Shape := ⟨true, true, ⟨1, 1, 1⟩, [], none⟩

/-- An empty manual-positioner combiner. -/
def cEmpty : Combiner ManualPos := Combiner.new ManualPos.new

/-- A combiner holding schemes "a" and "b", neither of which was ever
placed. -/
def cTwoUnplaced : Combiner ManualPos :=
  (Combiner.add manualPosI
    ((Combiner.add manualPosI (Combiner.new ManualPos.new) "a" (shapeIntoScheme sampleGate)).2)
    "b" (shapeIntoScheme sampleGate)).2


/-- The (empty) core state of compiling `cEmpty`. -/
def stEmpty : CoreState := ⟨[], [], [], [], [], ⟨[], [], []⟩⟩


/-! ### Theorems -/

@[simp] theorem Point.mk_x (a b c : Int) : (Point.mk a b c).x = a := rfl

@[simp] theorem Point.mk_y (a b c : Int) : (Point.mk a b c).y = b := rfl

@[simp] theorem Point.mk_z (a b c : Int) : (Point.mk a b c).z = c := rfl

theorem Point.add_def (a b : Point) :
    a + b = ⟨a.x + b.x, a.y + b.y, a.z + b.z⟩ := rfl

theorem Point.sub_def (a b : Point) :
    a - b = ⟨a.x - b.x, a.y - b.y, a.z - b.z⟩ := rfl

theorem isPointInBounds_iff (p : Point) (b : Bounds) :
    isPointInBounds p b = true ↔
      (0 ≤ p.x ∧ 0 ≤ p.y ∧ 0 ≤ p.z ∧
        p.x < (b.x : Int) ∧ p.y < (b.y : Int) ∧ p.z < (b.z : Int)) := by
  simp [isPointInBounds, and_assoc]

theorem mem_intRange (k : Int) (n : Nat) :
    k ∈ intRange n ↔ 0 ≤ k ∧ k < (n : Int) := by
  unfold intRange
  constructor
  · intro h
    obtain ⟨m, hm, hEq⟩ := List.mem_map.mp h
    rw [List.mem_range] at hm
    omega
  · rintro ⟨h0, h1⟩
    exact List.mem_map.mpr ⟨k.toNat, List.mem_range.mpr (by omega), by omega⟩

theorem mem_rangePoints (p : Point) (b : Bounds) :
    p ∈ rangePoints b ↔ isPointInBounds p b = true := by
  obtain ⟨px, py, pz⟩ := p
  unfold rangePoints
  rw [isPointInBounds_iff]
  simp only [Point.mk_x, Point.mk_y, Point.mk_z]
  constructor
  · intro hp
    obtain ⟨xs, hxs, hp2⟩ := List.mem_flatMap.mp hp
    obtain ⟨ys, hys, hp3⟩ := List.mem_flatMap.mp hp2
    obtain ⟨zs, hzs, hEq⟩ := List.mem_map.mp hp3
    rw [List.mem_range] at hxs hys hzs
    injection hEq with e1 e2 e3
    omega
  · rintro ⟨h1, h2, h3, h4, h5, h6⟩
    apply List.mem_flatMap.mpr
    refine ⟨px.toNat, List.mem_range.mpr (by omega), ?_⟩
    apply List.mem_flatMap.mpr
    refine ⟨py.toNat, List.mem_range.mpr (by omega), ?_⟩
    apply List.mem_map.mpr
    refine ⟨pz.toNat, List.mem_range.mpr (by omega), ?_⟩
    congr 1 <;> omega

/-- C6: `Straight` is the identity mapping truncated to the coordinate-wise
minimum of the two boxes, and on `Bounds(5,1,1)`/`Bounds(3,1,1)` it yields
exactly the three pairs `(0,0)`, `(1,1)`, `(2,2)` along the x axis. -/
theorem connStraight_truncated_identity :
    (∀ (s e : Bounds) (pr : Point × Point),
        pr ∈ connStraight s e ↔
          (pr.2 = pr.1 ∧
            isPointInBounds pr.1 ⟨min s.x e.x, min s.y e.y, min s.z e.z⟩ = true)) ∧
    connStraight ⟨5, 1, 1⟩ ⟨3, 1, 1⟩ =
      [(⟨0, 0, 0⟩, ⟨0, 0, 0⟩), (⟨1, 0, 0⟩, ⟨1, 0, 0⟩), (⟨2, 0, 0⟩, ⟨2, 0, 0⟩)] := by
  constructor
  · intro s e pr
    have hmin : ∀ a b : Nat, (if a < b then a else b) = min a b := by
      intro a b; by_cases h : a < b <;> simp [h] <;> omega
    simp only [connStraight, List.mem_map, hmin]
    constructor
    · rintro ⟨p, hp, rfl⟩
      exact ⟨rfl, (mem_rangePoints p _).mp hp⟩
    · rintro ⟨h2, h1⟩
      refine ⟨pr.1, (mem_rangePoints pr.1 _).mpr h1, ?_⟩
      obtain ⟨a, b⟩ := pr
      simp only [] at h2
      rw [h2]
  · rfl

/-- C7: `Dim` connects each start point, on every adapted axis, to every
coordinate of the end box, and keeps its own coordinate unchecked on
non-adapted axes; `Dim((true,false,false))` from `Bounds(1,1,1)` to
`Bounds(4,1,1)` yields exactly the four pairs from `(0,0,0)` to
`(x,0,0)`, `x = 0..3`. -/
theorem connDim_broadcast :
    (∀ (ax ay az : Bool) (s e : Bounds) (pr : Point × Point),
        pr ∈ connDim ax ay az s e ↔
          (isPointInBounds pr.1 s = true ∧
            dimAxisOk ax pr.1.x pr.2.x e.x ∧
            dimAxisOk ay pr.1.y pr.2.y e.y ∧
            dimAxisOk az pr.1.z pr.2.z e.z)) ∧
    connDim true false false ⟨1, 1, 1⟩ ⟨4, 1, 1⟩ =
      [(⟨0, 0, 0⟩, ⟨0, 0, 0⟩), (⟨0, 0, 0⟩, ⟨1, 0, 0⟩),
        (⟨0, 0, 0⟩, ⟨2, 0, 0⟩), (⟨0, 0, 0⟩, ⟨3, 0, 0⟩)] := by
  constructor
  · intro ax ay az s e pr
    have haxis : ∀ (adapt : Bool) (pc qc : Int) (eb : Nat),
        (qc ∈ (if adapt then intRange eb else [pc])) ↔
          dimAxisOk adapt pc qc eb := by
      intro adapt pc qc eb
      cases adapt
      · simp [dimAxisOk]
      · simp [dimAxisOk, mem_intRange]
    simp only [connDim, connDimRanges, List.mem_flatMap, List.mem_map]
    constructor
    · rintro ⟨p, hp, xe, hxe, ye, hye, ze, hze, rfl⟩
      exact ⟨(mem_rangePoints p s).mp hp, (haxis ax p.x xe e.x).mp hxe,
        (haxis ay p.y ye e.y).mp hye, (haxis az p.z ze e.z).mp hze⟩
    · rintro ⟨h1, hx, hy, hz⟩
      refine ⟨pr.1, (mem_rangePoints pr.1 s).mpr h1, pr.2.x,
        (haxis ax pr.1.x pr.2.x e.x).mpr hx, pr.2.y,
        (haxis ay pr.1.y pr.2.y e.y).mpr hy, pr.2.z,
        (haxis az pr.1.z pr.2.z e.z).mpr hz, ?_⟩
      cases pr with
      | mk a b => cases b; rfl
  · rfl

theorem Mat3x3.mul_mulVec (a b : Mat3x3) (v : Point) :
    (a.mul b).mulVec v = a.mulVec (b.mulVec v) := by
  cases a; cases b; cases v
  simp only [Mat3x3.mul, Mat3x3.mulVec, Point.mk.injEq, Point.mk_x, Point.mk_y, Point.mk_z]
  refine ⟨by ring, by ring, by ring⟩

theorem Rot.compose_apply (r1 r2 : Rot) (p : Point) :
    r2.apply (r1.apply p) = (r2.applyToRot r1).apply p := by
  cases r1; cases r2
  simp only [Rot.apply, Rot.applyToRot, Mat3x3.mul_mulVec]

/-- C8: for all rotations in the 24-element set, applying `r1` then `r2`
to an integer point equals applying the composed rotation
`r2.apply_to_rot(r1)`. -/
theorem rot24_composition :
    rotations24.length = 24 ∧
    ∀ r1 ∈ rotations24, ∀ r2 ∈ rotations24, ∀ p : Point,
      r2.apply (r1.apply p) = (r2.applyToRot r1).apply p :=
  ⟨by decide, fun r1 _ r2 _ p => Rot.compose_apply r1 r2 p⟩

/-- Witness for C8 at concrete rotations and a concrete point. -/
theorem rot24_composition_witness :
    Rot.new 1 0 0 ∈ rotations24 ∧ Rot.new 0 0 1 ∈ rotations24 ∧
    (Rot.new 0 0 1).apply ((Rot.new 1 0 0).apply ⟨1, 2, 3⟩) =
      ((Rot.new 0 0 1).applyToRot (Rot.new 1 0 0)).apply ⟨1, 2, 3⟩ :=
  ⟨by decide, by decide,
    rot24_composition.2 (Rot.new 1 0 0) (by decide) (Rot.new 0 0 1) (by decide) ⟨1, 2, 3⟩⟩

theorem renumberRemoved_eq (k : Nat) (l : List Nat) :
    renumberRemoved k l = renumberSpec k l := by
  induction l with
  | nil => rfl
  | cons c rest ih =>
    unfold renumberRemoved renumberSpec
    unfold renumberSpec at ih
    by_cases h1 : c = k
    · subst h1
      rw [if_pos rfl, List.filterMap_cons, if_neg (Nat.lt_irrefl _), if_pos rfl]
      exact ih
    · by_cases h2 : k < c
      · rw [if_neg h1, if_pos h2, List.filterMap_cons,
          if_neg (by omega : ¬ c < k), if_neg h1, ih]
      · rw [if_neg h1, if_neg h2, List.filterMap_cons,
          if_pos (by omega : c < k), ih]

theorem renumberRemoved_fun_eq (k : Nat) :
    renumberRemoved k = renumberSpec k :=
  funext (renumberRemoved_eq k)

/-- C5: removing the unit at index `k < n` erases that unit and rewrites
every remaining unit's outgoing-connection list and every input/output
slot's per-point index list by the law: `i < k` unchanged, `i = k`
deleted, `i > k` decreased by 1. -/
theorem scheme_remove_shape_renumbers (s : Scheme) (k : Nat) (h : k < s.shapes.length) :
    (s.noBoundsRemoveShape k).shapes =
      (s.shapes.eraseIdx k).map (fun t =>
        (t.1, t.2.1, { t.2.2 with conns := renumberSpec k t.2.2.conns })) ∧
    (s.noBoundsRemoveShape k).inputs =
      s.inputs.map (fun sl =>
        { sl with shapeMap := { sl.shapeMap with data := sl.shapeMap.data.map (renumberSpec k) } }) ∧
    (s.noBoundsRemoveShape k).outputs =
      s.outputs.map (fun sl =>
        { sl with shapeMap := { sl.shapeMap with data := sl.shapeMap.data.map (renumberSpec k) } }) := by
  have hg : ¬ (s.shapes.length ≤ k) := by omega
  unfold Scheme.noBoundsRemoveShape
  rw [if_neg hg]
  unfold Scheme.deleteConnectionsTo Slot.shapeWasRemoved
  refine ⟨?_, ?_, ?_⟩ <;> simp only [renumberRemoved_eq, renumberRemoved_fun_eq]

/-- Witness for C5 on a concrete three-unit scheme, removing index 1. -/
theorem scheme_remove_shape_renumbers_witness :
    1 < sampleRemovalScheme.shapes.length ∧
    ((sampleRemovalScheme.noBoundsRemoveShape 1).shapes =
      (sampleRemovalScheme.shapes.eraseIdx 1).map (fun t =>
        (t.1, t.2.1, { t.2.2 with conns := renumberSpec 1 t.2.2.conns })) ∧
    (sampleRemovalScheme.noBoundsRemoveShape 1).inputs =
      sampleRemovalScheme.inputs.map (fun sl =>
        { sl with shapeMap := { sl.shapeMap with data := sl.shapeMap.data.map (renumberSpec 1) } }) ∧
    (sampleRemovalScheme.noBoundsRemoveShape 1).outputs =
      sampleRemovalScheme.outputs.map (fun sl =>
        { sl with shapeMap := { sl.shapeMap with data := sl.shapeMap.data.map (renumberSpec 1) } })) :=
  ⟨by decide, scheme_remove_shape_renumbers sampleRemovalScheme 1 (by decide)⟩

/-- C10: the `Shape → Scheme` conversion populates both the input and the
output slot list exactly when `has_input()` holds, and never consults
`has_output()`. -/
theorem shapeIntoScheme_slots_from_hasInput :
    (∀ s : Shape,
      ((shapeIntoScheme s).inputs ≠ [] ↔ s.hasInput = true) ∧
      ((shapeIntoScheme s).outputs ≠ [] ↔ s.hasInput = true)) ∧
    (∀ (s : Shape) (b : Bool),
      (shapeIntoScheme { s with hasOutput := b }).inputs = (shapeIntoScheme s).inputs ∧
      (shapeIntoScheme { s with hasOutput := b }).outputs = (shapeIntoScheme s).outputs) := by
  constructor
  · intro s
    unfold shapeIntoScheme Scheme.create
    cases h : s.hasInput <;> simp [h]
  · intro s b
    unfold shapeIntoScheme Scheme.create
    cases h : s.hasInput <;> simp [h]

theorem listModify_getElem?_self {α : Type} (l : List α) (i : Nat) (f : α → α) :
    (listModify l i f)[i]? = (l[i]?).map f := by
  induction l generalizing i with
  | nil => simp [listModify]
  | cons a t ih =>
    cases i with
    | zero => simp [listModify]
    | succ n => simp [listModify, ih]

theorem listModify_getElem?_ne {α : Type} (l : List α) (i j : Nat) (f : α → α)
    (h : j ≠ i) : (listModify l i f)[j]? = l[j]? := by
  induction l generalizing i j with
  | nil => simp [listModify]
  | cons a t ih =>
    cases i with
    | zero =>
      cases j with
      | zero => exact absurd rfl h
      | succ m => simp [listModify]
    | succ n =>
      cases j with
      | zero => simp [listModify]
      | succ m => simpa [listModify] using ih n m (by omega)

theorem Map3D.toId_some {α : Type} (m : Map3D α) (pos : Nat × Nat × Nat) (i : Nat)
    (h : m.toId pos = some i) :
    pos.1 < m.xSize ∧ pos.2.1 < m.ySize ∧ pos.2.2 < m.zSize ∧
      i = pos.1 + pos.2.1 * m.xSize + pos.2.2 * m.xSize * m.ySize := by
  unfold Map3D.toId at h
  by_cases hc : m.xSize ≤ pos.1 ∨ m.ySize ≤ pos.2.1 ∨ m.zSize ≤ pos.2.2
  · rw [if_pos hc] at h; cases h
  · rw [if_neg hc] at h
    push_neg at hc
    injection h with h2
    exact ⟨hc.1, hc.2.1, hc.2.2, h2.symm⟩

theorem Map3D.toId_inj {α : Type} (m : Map3D α) (p q : Nat × Nat × Nat) (i : Nat)
    (hp : m.toId p = some i) (hq : m.toId q = some i) : p = q := by
  obtain ⟨hp1, hp2, hp3, hpi⟩ := m.toId_some p i hp
  obtain ⟨hq1, hq2, hq3, hqi⟩ := m.toId_some q i hq
  have e1 : p.1 + (p.2.1 + p.2.2 * m.ySize) * m.xSize = i := by rw [hpi]; ring
  have e2 : q.1 + (q.2.1 + q.2.2 * m.ySize) * m.xSize = i := by rw [hqi]; ring
  have m1 : (p.1 + (p.2.1 + p.2.2 * m.ySize) * m.xSize) % m.xSize = p.1 := by
    rw [Nat.add_mul_mod_self_right]; exact Nat.mod_eq_of_lt hp1
  have m2 : (q.1 + (q.2.1 + q.2.2 * m.ySize) * m.xSize) % m.xSize = q.1 := by
    rw [Nat.add_mul_mod_self_right]; exact Nat.mod_eq_of_lt hq1
  have hx : p.1 = q.1 := by rw [← m1, ← m2, e1, e2]
  have hxs : 0 < m.xSize := by omega
  have ht : p.2.1 + p.2.2 * m.ySize = q.2.1 + q.2.2 * m.ySize := by
    have := e1.trans e2.symm
    have h3 : (p.2.1 + p.2.2 * m.ySize) * m.xSize = (q.2.1 + q.2.2 * m.ySize) * m.xSize := by
      omega
    exact Nat.eq_of_mul_eq_mul_right hxs h3
  have m3 : (p.2.1 + p.2.2 * m.ySize) % m.ySize = p.2.1 := by
    rw [Nat.add_mul_mod_self_right]; exact Nat.mod_eq_of_lt hp2
  have m4 : (q.2.1 + q.2.2 * m.ySize) % m.ySize = q.2.1 := by
    rw [Nat.add_mul_mod_self_right]; exact Nat.mod_eq_of_lt hq2
  have hy : p.2.1 = q.2.1 := by rw [← m3, ← m4, ht]
  have hys : 0 < m.ySize := by omega
  have hz : p.2.2 = q.2.2 := by
    have h4 : p.2.2 * m.ySize = q.2.2 * m.ySize := by omega
    exact Nat.eq_of_mul_eq_mul_right hys h4
  obtain ⟨a1, a2, a3⟩ := p
  obtain ⟨b1, b2, b3⟩ := q
  simp_all

theorem Map3D.toId_data_update {α : Type} (m : Map3D α) (d : List α) (pos : Nat × Nat × Nat) :
    ({ m with data := d } : Map3D α).toId pos = m.toId pos := rfl

theorem Map3D.get_modifyAt {α : Type} (m : Map3D α) (q pos : Nat × Nat × Nat) (f : α → α) :
    (m.modifyAt q f).get pos = if pos = q then (m.get pos).map f else m.get pos := by
  unfold Map3D.modifyAt
  cases hq : m.toId q with
  | none =>
    by_cases hpq : pos = q
    · subst hpq
      rw [if_pos rfl]
      unfold Map3D.get
      rw [hq]
      rfl
    · rw [if_neg hpq]
  | some id =>
    by_cases hpq : pos = q
    · subst hpq
      rw [if_pos rfl]
      unfold Map3D.get
      rw [Map3D.toId_data_update, hq]
      simp [listModify_getElem?_self]
    · rw [if_neg hpq]
      unfold Map3D.get
      rw [Map3D.toId_data_update]
      cases hp : m.toId pos with
      | none => rfl
      | some j =>
        have hne : j ≠ id := by
          intro hEq
          subst hEq
          exact hpq (m.toId_inj pos q j hp hq)
        simp [listModify_getElem?_ne m.data id j f hne]

theorem get_bindApplyPair (startShape : Nat) (slot : Slot) (sec : SlotSector)
    (e : BasicBind) (m : Map3D (List Nat)) (pr : Point × Point) (pos : Nat × Nat × Nat) :
    (bindApplyPair startShape slot sec e m pr).get pos =
      if (pr.1 + e.sectorCorner).castTuple = pos then
        (m.get pos).map (fun cur => cur ++ pairUnits startShape slot sec pr)
      else m.get pos := by
  unfold bindApplyPair
  rw [Map3D.get_modifyAt]
  by_cases h : pos = (pr.1 + e.sectorCorner).castTuple
  · rw [if_pos h, if_pos h.symm]
  · rw [if_neg h, if_neg (fun hEq => h hEq.symm)]

theorem get_foldl_pairs (sz : Bounds) (e : BasicBind) (slot : Slot) (sec : SlotSector)
    (st : Nat) (pairs : List (Point × Point)) (m : Map3D (List Nat)) (pos : Nat × Nat × Nat) :
    (pairs.foldl (fun mm pr =>
        if bindPairValid sz e slot sec pr then bindApplyPair st slot sec e mm pr else mm) m).get pos =
      (m.get pos).map (fun cur => cur ++
        (pairs.filter (fun pr => bindPairValid sz e slot sec pr &&
          decide ((pr.1 + e.sectorCorner).castTuple = pos))).flatMap (pairUnits st slot sec)) := by
  induction pairs generalizing m with
  | nil => simp
  | cons pr rest ih =>
    simp only [List.foldl_cons, List.filter_cons]
    by_cases hv : bindPairValid sz e slot sec pr = true
    · rw [if_pos hv, ih, get_bindApplyPair]
      by_cases hp : (pr.1 + e.sectorCorner).castTuple = pos
      · rw [if_pos hp]
        cases m.get pos <;> simp [hv, hp, List.append_assoc]
      · rw [if_neg hp]
        cases m.get pos <;> simp [hv, hp]
    · rw [if_neg hv, ih]
      cases m.get pos <;> simp [hv]

/-- C4: for a resolvable Bind entry the strategy runs between the local
sector size and the target sector size (`Input` direct, `Output` with the
operand order mirrored and the pairs swapped back), and a produced pair
contributes its target units to the local point it names if and only if
it passes all four bounds checks; pairs that fail are dropped without
producing any diagnostic. -/
theorem bind_entry_direction_bounds_filter
    (sz : Bounds) (ns : List (String × Nat × List Slot)) (side : SlotSide)
    (e : BasicBind) (startShape : Nat) (slot : Slot) (sec : SlotSector)
    (hres : compileGetSlot e ns = .ok (startShape, slot, sec))
    (m : Map3D (List Nat)) (errs : List InvalidConn) :
    (bindCompileStep sz ns side (m, errs) e).2 = errs ∧
    ∀ pos, (bindCompileStep sz ns side (m, errs) e).1.get pos =
      (m.get pos).map (fun cur => cur ++ entryContrib sz e slot sec startShape side pos) := by
  unfold bindCompileStep
  rw [hres]
  exact ⟨rfl, fun pos => get_foldl_pairs sz e slot sec startShape _ m pos⟩

/-- Witness for C4: the resolvable entry `wEntry` over `wNs`, with an
explicitly evaluated contribution. -/
theorem bind_entry_direction_bounds_filter_witness :
    compileGetSlot wEntry wNs =
      .ok (5, Slot.new "_" "logic" ⟨1, 1, 1⟩ ⟨1, 1, 1, [[0]]⟩,
           (⟨⟨0, 0, 0⟩, ⟨1, 1, 1⟩, "logic"⟩ : SlotSector)) ∧
    ((bindCompileStep ⟨1, 1, 1⟩ wNs .input (Map3D.filled (1, 1, 1) [], []) wEntry).2 = [] ∧
     ∀ pos, (bindCompileStep ⟨1, 1, 1⟩ wNs .input (Map3D.filled (1, 1, 1) [], []) wEntry).1.get pos =
       ((Map3D.filled (1, 1, 1) ([] : List Nat)).get pos).map (fun cur => cur ++
         entryContrib ⟨1, 1, 1⟩ wEntry (Slot.new "_" "logic" ⟨1, 1, 1⟩ ⟨1, 1, 1, [[0]]⟩)
           (⟨⟨0, 0, 0⟩, ⟨1, 1, 1⟩, "logic"⟩ : SlotSector) 5 .input pos)) :=
  ⟨rfl, bind_entry_direction_bounds_filter ⟨1, 1, 1⟩ wNs .input wEntry 5
    (Slot.new "_" "logic" ⟨1, 1, 1⟩ ⟨1, 1, 1, [[0]]⟩)
    (⟨⟨0, 0, 0⟩, ⟨1, 1, 1⟩, "logic"⟩ : SlotSector) rfl (Map3D.filled (1, 1, 1) []) []⟩

theorem bindCompileStep_error (sz : Bounds) (ns : List (String × Nat × List Slot))
    (side : SlotSide) (acc : Map3D (List Nat) × List InvalidConn) (e : BasicBind)
    (err : InvalidConn) (h : compileGetSlot e ns = .error err) :
    bindCompileStep sz ns side acc e = (acc.1, acc.2 ++ [err]) := by
  unfold bindCompileStep
  rw [h]

theorem bindCompileStep_snd_ok (sz : Bounds) (ns : List (String × Nat × List Slot))
    (side : SlotSide) (acc : Map3D (List Nat) × List InvalidConn) (e : BasicBind)
    (r : Nat × Slot × SlotSector) (h : compileGetSlot e ns = .ok r) :
    (bindCompileStep sz ns side acc e).2 = acc.2 := by
  unfold bindCompileStep
  rw [h]

theorem bindCompileStep_fst_errs_irrel (sz : Bounds) (ns : List (String × Nat × List Slot))
    (side : SlotSide) (m : Map3D (List Nat)) (e1 e2 : List InvalidConn) (e : BasicBind) :
    (bindCompileStep sz ns side (m, e1) e).1 = (bindCompileStep sz ns side (m, e2) e).1 := by
  unfold bindCompileStep
  cases compileGetSlot e ns <;> rfl

theorem bindFold_errs (sz : Bounds) (ns : List (String × Nat × List Slot))
    (side : SlotSide) (maps : List BasicBind) :
    ∀ (m : Map3D (List Nat)) (errs : List InvalidConn),
    (maps.foldl (bindCompileStep sz ns side) (m, errs)).2 =
      errs ++ maps.filterMap (bindEntryErr ns) := by
  induction maps with
  | nil => intro m errs; simp
  | cons e rest ih =>
    intro m errs
    simp only [List.foldl_cons, List.filterMap_cons]
    cases h : compileGetSlot e ns with
    | error err =>
      rw [bindCompileStep_error sz ns side (m, errs) e err h, ih]
      simp [bindEntryErr, h]
    | ok r =>
      have h2 : (bindCompileStep sz ns side (m, errs) e).2 = errs :=
        bindCompileStep_snd_ok sz ns side (m, errs) e r h
      have hsplit : bindCompileStep sz ns side (m, errs) e
          = ((bindCompileStep sz ns side (m, errs) e).1, errs) :=
        congrArg (fun t => ((bindCompileStep sz ns side (m, errs) e).1, t)) h2
      rw [hsplit, ih]
      simp [bindEntryErr, h]

theorem bindFold_fst_errs_irrel (sz : Bounds) (ns : List (String × Nat × List Slot))
    (side : SlotSide) (maps : List BasicBind) :
    ∀ (m : Map3D (List Nat)) (errs errs2 : List InvalidConn),
    (maps.foldl (bindCompileStep sz ns side) (m, errs)).1 =
      (maps.foldl (bindCompileStep sz ns side) (m, errs2)).1 := by
  induction maps with
  | nil => intro m errs errs2; rfl
  | cons e rest ih =>
    intro m errs errs2
    simp only [List.foldl_cons]
    calc (rest.foldl (bindCompileStep sz ns side) (bindCompileStep sz ns side (m, errs) e)).1
        = (rest.foldl (bindCompileStep sz ns side)
            ((bindCompileStep sz ns side (m, errs2) e).1,
             (bindCompileStep sz ns side (m, errs) e).2)).1 := by
          rw [← bindCompileStep_fst_errs_irrel sz ns side m errs errs2 e]
      _ = (rest.foldl (bindCompileStep sz ns side)
            ((bindCompileStep sz ns side (m, errs2) e).1,
             (bindCompileStep sz ns side (m, errs2) e).2)).1 :=
          ih _ _ _
      _ = (rest.foldl (bindCompileStep sz ns side) (bindCompileStep sz ns side (m, errs2) e)).1 :=
          rfl

theorem bindFold_map_filter (sz : Bounds) (ns : List (String × Nat × List Slot))
    (side : SlotSide) (maps : List BasicBind) :
    ∀ (m : Map3D (List Nat)) (errs errs2 : List InvalidConn),
    (maps.foldl (bindCompileStep sz ns side) (m, errs)).1 =
      ((maps.filter (fun e => (bindEntryErr ns e).isNone)).foldl
        (bindCompileStep sz ns side) (m, errs2)).1 := by
  induction maps with
  | nil => intro m errs errs2; rfl
  | cons e rest ih =>
    intro m errs errs2
    simp only [List.foldl_cons, List.filter_cons]
    cases h : compileGetSlot e ns with
    | error err =>
      have hc : (bindEntryErr ns e).isNone = false := by simp [bindEntryErr, h]
      rw [hc, if_neg Bool.false_ne_true,
        bindCompileStep_error sz ns side (m, errs) e err h]
      exact ih m (errs ++ [err]) errs2
    | ok r =>
      have hc : (bindEntryErr ns e).isNone = true := by simp [bindEntryErr, h]
      rw [hc, if_pos rfl]
      simp only [List.foldl_cons]
      calc (rest.foldl (bindCompileStep sz ns side) (bindCompileStep sz ns side (m, errs) e)).1
          = ((rest.filter (fun e => (bindEntryErr ns e).isNone)).foldl
              (bindCompileStep sz ns side)
              ((bindCompileStep sz ns side (m, errs) e).1, errs2)).1 :=
            ih _ _ _
        _ = ((rest.filter (fun e => (bindEntryErr ns e).isNone)).foldl
              (bindCompileStep sz ns side)
              ((bindCompileStep sz ns side (m, errs2) e).1, errs2)).1 := by
            rw [bindCompileStep_fst_errs_irrel sz ns side m errs errs2 e]
        _ = ((rest.filter (fun e => (bindEntryErr ns e).isNone)).foldl
              (bindCompileStep sz ns side) (bindCompileStep sz ns side (m, errs2) e)).1 :=
            bindFold_fst_errs_irrel sz ns side _ _ _ _

theorem filterMap_isNone_filter {α β : Type} (f : α → Option β) (l : List α) :
    (l.filter (fun e => (f e).isNone)).filterMap f = [] := by
  induction l with
  | nil => rfl
  | cons a t ih =>
    simp only [List.filter_cons]
    cases h : f a with
    | none => simp [h, ih]
    | some b => simp [h, ih]

theorem transplantFold_ok (sectors : List (String × Point × Bounds × String)) :
    ∀ (sl : Slot),
    (∀ en ∈ sectors, en.1 ≠ "") →
    ((sl.sectors.map (fun q => q.1)) ++ sectors.map (fun en => en.1)).Nodup →
    sectors.foldlM (fun (s : Slot) sec =>
        (s.bindSector sec.1 ⟨sec.2.1, sec.2.2.1, sec.2.2.2⟩).toOption) sl
      = some { sl with sectors := (sl.sectors ++
          sectors.map (fun sec => (sec.1, (⟨sec.2.1, sec.2.2.1, sec.2.2.2⟩ : SlotSector)))) } := by
  induction sectors with
  | nil =>
    intro sl h1 h2
    simp
  | cons sec rest ih =>
    intro sl h1 h2
    rw [List.foldlM_cons]
    have hname : sec.1 ≠ "" := h1 sec (by simp)
    have hlen : ¬ (sec.1.length = 0) := by
      intro h0
      apply hname
      have hdata : sec.1.data = [] := List.eq_nil_of_length_eq_zero h0
      exact String.ext (by simp [hdata])
    have hdisj : (sl.sectors.map (fun q => q.1)).Disjoint
        ((sec :: rest).map (fun en => en.1)) := (List.nodup_append.mp h2).2.2
    have hfind : (sl.sectors.find? (fun q => q.1 == sec.1)) = none := by
      apply List.find?_eq_none.mpr
      intro q hq
      simp only [beq_iff_eq]
      intro hEq
      exact hdisj (List.mem_map.mpr ⟨q, hq, rfl⟩) (by simp [← hEq])
    have hstep : (sl.bindSector sec.1 ⟨sec.2.1, sec.2.2.1, sec.2.2.2⟩).toOption
        = some { sl with sectors := sl.sectors ++ [(sec.1, ⟨sec.2.1, sec.2.2.1, sec.2.2.2⟩)] } := by
      unfold Slot.bindSector
      rw [if_neg hlen, hfind]
      rfl
    rw [hstep]
    show rest.foldlM _ _ = _
    have h2' : (({ sl with sectors := sl.sectors ++ [(sec.1, (⟨sec.2.1, sec.2.2.1, sec.2.2.2⟩ : SlotSector))] } : Slot).sectors.map
        (fun q => q.1) ++ rest.map (fun en => en.1)).Nodup := by
      have h3 := h2
      rw [show (List.map (fun (en : String × Point × Bounds × String) => en.1) (sec :: rest))
          = sec.1 :: List.map (fun en => en.1) rest from rfl, List.append_cons] at h3
      simpa using h3
    have h1' : ∀ en ∈ rest, en.1 ≠ "" := fun en hen => h1 en (by simp [hen])
    rw [ih _ h1' h2']
    simp [List.append_assoc]

theorem SmBind.compile_eq (b : SmBind) (ns : List (String × Nat × List Slot))
    (side : SlotSide) :
    b.compile ns side =
      (b.sectors.foldlM (fun (sl : Slot) sec =>
          (sl.bindSector sec.1 ⟨sec.2.1, sec.2.2.1, sec.2.2.2⟩).toOption)
        (Slot.new b.name b.kind b.size
          (b.maps.foldl (bindCompileStep b.size ns side)
            (Map3D.filled (b.size.x, b.size.y, b.size.z) [], [])).1)).map
      (fun sl => (sl,
        (b.maps.foldl (bindCompileStep b.size ns side)
          (Map3D.filled (b.size.x, b.size.y, b.size.z) [], [])).2)) := rfl

/-- C1 (amended): provided no pre-declared sector of the Bind carries the
reserved empty name and the declared sector names are distinct (the
`add_sector` API enforces distinctness but accepts the empty name),
`Bind::compile` returns a Slot plus diagnostics; every entry whose target
path fails to resolve contributes exactly its one diagnostic (the
scheme / slot / sector cases distinguished by the `InvalidConn`
constructor chosen in `compile_get_slot`) and nothing to the point map;
and the result Slot is exactly the Slot compiled from the resolvable
entries alone. -/
theorem bind_compile_total_and_independent
    (b : SmBind) (ns : List (String × Nat × List Slot)) (side : SlotSide)
    (h1 : ∀ en ∈ b.sectors, en.1 ≠ "")
    (h2 : (b.sectors.map (fun en => en.1)).Nodup) :
    ∃ slot errs,
      b.compile ns side = some (slot, errs) ∧
      errs = b.maps.filterMap (bindEntryErr ns) ∧
      SmBind.compile { b with maps := b.maps.filter (fun e => (bindEntryErr ns e).isNone) } ns side
        = some (slot, []) := by
  have hco : ∀ (m : Map3D (List Nat)),
      (((Slot.new b.name b.kind b.size m).sectors.map (fun q => q.1)) ++
        b.sectors.map (fun en => en.1)).Nodup := by
    intro m
    rw [show ((Slot.new b.name b.kind b.size m).sectors.map (fun q => q.1)) = [""] from rfl,
      List.singleton_append, List.nodup_cons]
    refine ⟨?_, h2⟩
    intro hmem
    obtain ⟨en, henmem, heq⟩ := List.mem_map.mp hmem
    exact h1 en henmem heq
  have t1 := fun (m : Map3D (List Nat)) =>
    transplantFold_ok b.sectors (Slot.new b.name b.kind b.size m) h1 (hco m)
  have c1 : b.compile ns side = some
      ({ Slot.new b.name b.kind b.size
          (b.maps.foldl (bindCompileStep b.size ns side)
            (Map3D.filled (b.size.x, b.size.y, b.size.z) [], [])).1 with
        sectors := ((Slot.new b.name b.kind b.size
          (b.maps.foldl (bindCompileStep b.size ns side)
            (Map3D.filled (b.size.x, b.size.y, b.size.z) [], [])).1).sectors ++
          b.sectors.map (fun sec => (sec.1, (⟨sec.2.1, sec.2.2.1, sec.2.2.2⟩ : SlotSector)))) },
       (b.maps.foldl (bindCompileStep b.size ns side)
          (Map3D.filled (b.size.x, b.size.y, b.size.z) [], [])).2) := by
    rw [SmBind.compile_eq, t1 _]
    rfl
  have c2 : SmBind.compile { b with maps := b.maps.filter (fun e => (bindEntryErr ns e).isNone) } ns side
      = some
      ({ Slot.new b.name b.kind b.size
          ((b.maps.filter (fun e => (bindEntryErr ns e).isNone)).foldl
            (bindCompileStep b.size ns side)
            (Map3D.filled (b.size.x, b.size.y, b.size.z) [], [])).1 with
        sectors := ((Slot.new b.name b.kind b.size
          ((b.maps.filter (fun e => (bindEntryErr ns e).isNone)).foldl
            (bindCompileStep b.size ns side)
            (Map3D.filled (b.size.x, b.size.y, b.size.z) [], [])).1).sectors ++
          b.sectors.map (fun sec => (sec.1, (⟨sec.2.1, sec.2.2.1, sec.2.2.2⟩ : SlotSector)))) },
       ((b.maps.filter (fun e => (bindEntryErr ns e).isNone)).foldl
          (bindCompileStep b.size ns side)
          (Map3D.filled (b.size.x, b.size.y, b.size.z) [], [])).2) := by
    rw [SmBind.compile_eq]
    show (b.sectors.foldlM (fun (sl : Slot) sec =>
        (sl.bindSector sec.1 ⟨sec.2.1, sec.2.2.1, sec.2.2.2⟩).toOption)
      (Slot.new b.name b.kind b.size
        ((b.maps.filter (fun e => (bindEntryErr ns e).isNone)).foldl
          (bindCompileStep b.size ns side)
          (Map3D.filled (b.size.x, b.size.y, b.size.z) [], [])).1)).map
      (fun sl => (sl,
        ((b.maps.filter (fun e => (bindEntryErr ns e).isNone)).foldl
          (bindCompileStep b.size ns side)
          (Map3D.filled (b.size.x, b.size.y, b.size.z) [], [])).2)) = _
    rw [t1 _]
    rfl
  have hR2 : (b.maps.foldl (bindCompileStep b.size ns side)
      (Map3D.filled (b.size.x, b.size.y, b.size.z) [], [])).2
      = b.maps.filterMap (bindEntryErr ns) := by
    simpa using bindFold_errs b.size ns side b.maps (Map3D.filled (b.size.x, b.size.y, b.size.z) []) []
  have hF1 : (b.maps.foldl (bindCompileStep b.size ns side)
      (Map3D.filled (b.size.x, b.size.y, b.size.z) [], [])).1
      = ((b.maps.filter (fun e => (bindEntryErr ns e).isNone)).foldl
        (bindCompileStep b.size ns side)
        (Map3D.filled (b.size.x, b.size.y, b.size.z) [], [])).1 :=
    bindFold_map_filter b.size ns side b.maps _ _ _
  have hF2 : ((b.maps.filter (fun e => (bindEntryErr ns e).isNone)).foldl
      (bindCompileStep b.size ns side)
      (Map3D.filled (b.size.x, b.size.y, b.size.z) [], [])).2 = [] := by
    have := bindFold_errs b.size ns side (b.maps.filter (fun e => (bindEntryErr ns e).isNone))
      (Map3D.filled (b.size.x, b.size.y, b.size.z) []) []
    simpa [filterMap_isNone_filter] using this
  refine ⟨_, _, c1, hR2, ?_⟩
  rw [c2, hF2, ← hF1]

/-- Witness for C1 (amended) on `wBind` (one missing-scheme entry, one
resolvable entry, no declared sectors) over `wNs`. -/
theorem bind_compile_total_and_independent_witness :
    (∀ en ∈ wBind.sectors, en.1 ≠ "") ∧
    (wBind.sectors.map (fun en => en.1)).Nodup ∧
    (∃ slot errs, wBind.compile wNs .input = some (slot, errs) ∧
      errs = wBind.maps.filterMap (bindEntryErr wNs) ∧
      SmBind.compile { wBind with maps := wBind.maps.filter (fun e => (bindEntryErr wNs e).isNone) } wNs .input
        = some (slot, [])) :=
  ⟨by decide, by decide,
    bind_compile_total_and_independent wBind wNs .input (by decide) (by decide)⟩

/-- Counterexample to C1 as stated: a Bind that pre-declares a sector
under the reserved empty name — reachable through the public
`add_sector` API, which only rejects duplicates and out-of-bounds
sectors — makes `Bind::compile` panic on `bind_sector(..).unwrap()`
instead of returning a Slot (modelled as `none`), for any namespace. -/
theorem bind_compile_aborts_on_empty_sector_name :
    (SmBind.addSector (SmBind.new "n" "k" ⟨1, 1, 1⟩) "" ⟨0, 0, 0⟩ ⟨1, 1, 1⟩ "s"
      = .ok { SmBind.new "n" "k" ⟨1, 1, 1⟩ with sectors := [("", ⟨0, 0, 0⟩, ⟨1, 1, 1⟩, "s")] }) ∧
    SmBind.compile { SmBind.new "n" "k" ⟨1, 1, 1⟩ with
        sectors := [("", ⟨0, 0, 0⟩, ⟨1, 1, 1⟩, "s")] } [] .input = none :=
  ⟨rfl, rfl⟩

theorem ManualPos.arrange_error_of_unplaced (mp : ManualPos) :
    ∀ (schemes : List (String × Scheme)),
    (∃ en ∈ schemes, mp.unplaced en.1 = true) →
    ∃ err, mp.arrange schemes = .error err ∧
      mp.unplaced (positionerErrName err) = true ∧
      (∃ en ∈ schemes, en.1 = positionerErrName err) ∧
      (∀ s ∈ schemes, mp.unplaced s.1 = true →
        (∀ t ∈ schemes, mp.unplaced t.1 = true → t.1 = s.1) →
        positionerErrName err = s.1) := by
  intro schemes
  induction schemes with
  | nil => rintro ⟨en, hen, _⟩; cases hen
  | cons en rest ih =>
    intro hex
    by_cases hu : mp.unplaced en.1 = true
    · unfold ManualPos.unplaced at hu
      cases hfind : mp.poses.find? (fun q => q.1 == en.1) with
      | none =>
        refine ⟨.schemeIsNotPlaced en.1, ?_, ?_, ⟨en, by simp, rfl⟩, ?_⟩
        · unfold ManualPos.arrange
          rw [hfind]
        · show mp.unplaced en.1 = true
          unfold ManualPos.unplaced
          rw [hfind]
        · intro s hs hsu huniq
          exact huniq en (by simp) (by unfold ManualPos.unplaced; rw [hfind])
      | some q =>
        rw [hfind] at hu
        dsimp only at hu
        cases hq : q.2.1 with
        | some pos => rw [hq] at hu; cases hu
        | none =>
          refine ⟨.schemeHasNoPosition en.1, ?_, ?_, ⟨en, by simp, rfl⟩, ?_⟩
          · unfold ManualPos.arrange
            rw [hfind]
            dsimp only
            rw [hq]
          · show mp.unplaced en.1 = true
            unfold ManualPos.unplaced
            rw [hfind]
            dsimp only
            rw [hq]
            rfl
          · intro s hs hsu huniq
            refine huniq en (by simp) ?_
            unfold ManualPos.unplaced
            rw [hfind]
            dsimp only
            rw [hq]
            rfl
    · have hplaced : ∃ q pos, mp.poses.find? (fun q2 => q2.1 == en.1) = some q ∧
          q.2.1 = some pos := by
        unfold ManualPos.unplaced at hu
        cases hfind : mp.poses.find? (fun q2 => q2.1 == en.1) with
        | none => rw [hfind] at hu; exact absurd rfl hu
        | some q =>
          rw [hfind] at hu
          dsimp only at hu
          cases hq : q.2.1 with
          | none => rw [hq] at hu; exact absurd rfl hu
          | some pos => exact ⟨q, pos, rfl, hq⟩
      obtain ⟨q, pos, hfind, hq⟩ := hplaced
      have hrest : ∃ w ∈ rest, mp.unplaced w.1 = true := by
        obtain ⟨w, hw, hwu⟩ := hex
        rcases List.mem_cons.mp hw with hEq | hwrest
        · subst hEq; exact absurd hwu hu
        · exact ⟨w, hwrest, hwu⟩
      obtain ⟨err, herr, h2, h3, h4⟩ := ih hrest
      refine ⟨err, ?_, h2, ?_, ?_⟩
      · unfold ManualPos.arrange
        rw [hfind]
        dsimp only
        rw [hq, herr]
      · obtain ⟨en2, hmem, hname⟩ := h3
        exact ⟨en2, by simp [hmem], hname⟩
      · intro s hs hsu huniq
        rcases List.mem_cons.mp hs with hEq | hsrest
        · subst hEq; exact absurd hsu hu
        · exact h4 s hsrest hsu
            (fun t ht htu => huniq t (List.mem_cons_of_mem en ht) htu)

/-- C3 (amended): a manual-positioner Combiner with at least one
added-but-never-placed scheme fails `compile` with a fatal positioner
error and no partial Scheme; the error names one unplaced scheme, and
when exactly one scheme is unplaced the error names that scheme. -/
theorem combiner_unplaced_fatal (c : Combiner ManualPos)
    (h : ∃ en ∈ c.schemes, c.positioner.unplaced en.1 = true) :
    ∃ err, Combiner.compile manualPosI c = some (.error (.positionerError err)) ∧
      c.positioner.unplaced (positionerErrName err) = true ∧
      (∃ en ∈ c.schemes, en.1 = positionerErrName err) ∧
      (∀ s ∈ c.schemes, c.positioner.unplaced s.1 = true →
        (∀ t ∈ c.schemes, c.positioner.unplaced t.1 = true → t.1 = s.1) →
        positionerErrName err = s.1) := by
  obtain ⟨err, herr, h2, h3, h4⟩ :=
    ManualPos.arrange_error_of_unplaced c.positioner c.schemes h
  refine ⟨err, ?_, h2, h3, h4⟩
  unfold Combiner.compile Combiner.compileCore
  rw [show manualPosI.arrange c.positioner c.schemes = .error err from herr]

/-- Witness for C3 (amended) on the two-scheme never-placed combiner. -/
theorem combiner_unplaced_fatal_witness :
    (∃ en ∈ cTwoUnplaced.schemes, cTwoUnplaced.positioner.unplaced en.1 = true) ∧
    (∃ err, Combiner.compile manualPosI cTwoUnplaced
        = some (.error (.positionerError err)) ∧
      cTwoUnplaced.positioner.unplaced (positionerErrName err) = true ∧
      (∃ en ∈ cTwoUnplaced.schemes, en.1 = positionerErrName err) ∧
      (∀ s ∈ cTwoUnplaced.schemes, cTwoUnplaced.positioner.unplaced s.1 = true →
        (∀ t ∈ cTwoUnplaced.schemes, cTwoUnplaced.positioner.unplaced t.1 = true → t.1 = s.1) →
        positionerErrName err = s.1)) :=
  ⟨by decide, combiner_unplaced_fatal cTwoUnplaced (by decide)⟩

/-- Counterexample to C3 as stated: with two unplaced schemes "a" and
"b" the fatal error carries the single name "a"; the added, unplaced
scheme "b" is not listed, so the error does not list every unplaced
scheme name. -/
theorem combiner_unplaced_error_names_one_scheme :
    Combiner.compile manualPosI cTwoUnplaced
      = some (.error (.positionerError (.schemeIsNotPlaced "a"))) ∧
    ("b", shapeIntoScheme sampleGate) ∈ cTwoUnplaced.schemes ∧
    cTwoUnplaced.positioner.unplaced "b" = true ∧
    positionerErrNames (ManualPosError.schemeIsNotPlaced "a") = ["a"] ∧
    "b" ∉ positionerErrNames (ManualPosError.schemeIsNotPlaced "a") :=
  ⟨rfl, by decide, by decide, rfl, by decide⟩

theorem Combiner.compile_core_ok {P E : Type} (inst : PositionerI P E) (c : Combiner P)
    (st : CoreState) (h : Combiner.compileCore inst c = some (.ok st)) :
    Combiner.compile inst c =
      (if c.connsOverflowAllowed then
        some (.ok (Scheme.create st.shapes st.inputs st.outputs, st.invalidActs))
      else if (st.shapes.map (fun t => decide (MAX_CONNECTIONS < t.2.2.conns.length))).any (fun x => x) then
        some (.error (.connectionsOverflow
          (checkAffectedSlots (st.shapes.map (fun t => decide (MAX_CONNECTIONS < t.2.2.conns.length))) st.inputsMap)
          (checkAffectedSlots (st.shapes.map (fun t => decide (MAX_CONNECTIONS < t.2.2.conns.length))) st.outputsMap)
          (overflowTip c.debugName)))
      else some (.ok (Scheme.create st.shapes st.inputs st.outputs, st.invalidActs))) := by
  unfold Combiner.compile
  rw [h]

theorem mem_checkAffectedSlots (ovf : List Bool) (slotsMap : List (String × Nat × List Slot))
    (path : String) :
    path ∈ checkAffectedSlots ovf slotsMap ↔
      ∃ en ∈ slotsMap, ∃ slot ∈ en.2.2,
        path = en.1 ++ "/" ++ slot.name ∧
        ∃ point ∈ slot.shapeMap.data, ∃ sh ∈ point, ovf.getD (en.2.1 + sh) false = true := by
  unfold checkAffectedSlots
  rw [List.mem_flatMap]
  constructor
  · rintro ⟨en, hen, hmem⟩
    rw [List.mem_filterMap] at hmem
    obtain ⟨slot, hslot, hif⟩ := hmem
    by_cases hc : slot.shapeMap.data.any
        (fun point => point.any (fun sh => ovf.getD (en.2.1 + sh) false)) = true
    · rw [if_pos hc] at hif
      injection hif with hpath
      refine ⟨en, hen, slot, hslot, hpath.symm, ?_⟩
      simpa using hc
    · rw [if_neg hc] at hif
      cases hif
  · rintro ⟨en, hen, slot, hslot, hpath, hov⟩
    refine ⟨en, hen, ?_⟩
    rw [List.mem_filterMap]
    refine ⟨slot, hslot, ?_⟩
    have hc : slot.shapeMap.data.any
        (fun point => point.any (fun sh => ovf.getD (en.2.1 + sh) false)) = true := by
      simpa using hov
    rw [if_pos hc, hpath]

/-- C2: with fan-out checking enabled, if after connection resolution
some unit carries more than `MAX_CONNECTIONS` outgoing connections then
`compile` fails with `ConnectionsOverflow` and no Scheme, and the
error's affected lists contain exactly the `scheme/slot` paths of every
input and output slot whose point-to-unit map references an over-limit
unit; with no over-limit unit, `compile` succeeds. -/
theorem combiner_fanout_ceiling {P E : Type} (inst : PositionerI P E) (c : Combiner P)
    (st : CoreState)
    (hAllow : c.connsOverflowAllowed = false)
    (hCore : Combiner.compileCore inst c = some (.ok st)) :
    if ∃ t ∈ st.shapes, MAX_CONNECTIONS < t.2.2.conns.length then
      ∃ ins outs tip,
        Combiner.compile inst c = some (.error (.connectionsOverflow ins outs tip)) ∧
        (∀ path, path ∈ ins ↔ ∃ en ∈ st.inputsMap, ∃ slot ∈ en.2.2,
          path = en.1 ++ "/" ++ slot.name ∧
          ∃ point ∈ slot.shapeMap.data, ∃ sh ∈ point,
            (st.shapes.map (fun t => decide (MAX_CONNECTIONS < t.2.2.conns.length))).getD
              (en.2.1 + sh) false = true) ∧
        (∀ path, path ∈ outs ↔ ∃ en ∈ st.outputsMap, ∃ slot ∈ en.2.2,
          path = en.1 ++ "/" ++ slot.name ∧
          ∃ point ∈ slot.shapeMap.data, ∃ sh ∈ point,
            (st.shapes.map (fun t => decide (MAX_CONNECTIONS < t.2.2.conns.length))).getD
              (en.2.1 + sh) false = true)
    else
      ∃ res, Combiner.compile inst c = some (.ok res) := by
  have hcompile := Combiner.compile_core_ok inst c st hCore
  rw [hAllow] at hcompile
  rw [if_neg Bool.false_ne_true] at hcompile
  have hany : ((st.shapes.map (fun t => decide (MAX_CONNECTIONS < t.2.2.conns.length))).any
      (fun x => x) = true) ↔ (∃ t ∈ st.shapes, MAX_CONNECTIONS < t.2.2.conns.length) := by
    simp [List.any_eq_true]
  by_cases h : ∃ t ∈ st.shapes, MAX_CONNECTIONS < t.2.2.conns.length
  · rw [if_pos h]
    rw [hany.mpr h, if_pos rfl] at hcompile
    exact ⟨_, _, _, hcompile, fun path => mem_checkAffectedSlots _ _ _,
      fun path => mem_checkAffectedSlots _ _ _⟩
  · rw [if_neg h]
    cases hb : (st.shapes.map (fun t => decide (MAX_CONNECTIONS < t.2.2.conns.length))).any
        (fun x => x) with
    | true => exact absurd (hany.mp hb) h
    | false =>
      rw [hb, if_neg Bool.false_ne_true] at hcompile
      exact ⟨_, hcompile⟩

/-- Witness for C2 on the empty combiner (no shapes, hence no
over-limit unit: the success branch). -/
theorem combiner_fanout_ceiling_witness :
    cEmpty.connsOverflowAllowed = false ∧
    Combiner.compileCore manualPosI cEmpty = some (.ok stEmpty) ∧
    (if ∃ t ∈ stEmpty.shapes, MAX_CONNECTIONS < t.2.2.conns.length then
      ∃ ins outs tip,
        Combiner.compile manualPosI cEmpty = some (.error (.connectionsOverflow ins outs tip)) ∧
        (∀ path, path ∈ ins ↔ ∃ en ∈ stEmpty.inputsMap, ∃ slot ∈ en.2.2,
          path = en.1 ++ "/" ++ slot.name ∧
          ∃ point ∈ slot.shapeMap.data, ∃ sh ∈ point,
            (stEmpty.shapes.map (fun t => decide (MAX_CONNECTIONS < t.2.2.conns.length))).getD
              (en.2.1 + sh) false = true) ∧
        (∀ path, path ∈ outs ↔ ∃ en ∈ stEmpty.outputsMap, ∃ slot ∈ en.2.2,
          path = en.1 ++ "/" ++ slot.name ∧
          ∃ point ∈ slot.shapeMap.data, ∃ sh ∈ point,
            (stEmpty.shapes.map (fun t => decide (MAX_CONNECTIONS < t.2.2.conns.length))).getD
              (en.2.1 + sh) false = true)
    else
      ∃ res, Combiner.compile manualPosI cEmpty = some (.ok res)) :=
  ⟨rfl, rfl, combiner_fanout_ceiling manualPosI cEmpty stEmpty rfl rfl⟩

/-- C9: a second `add` under an already-used name fails with the
name-conflict error and changes nothing (the builder still holds exactly
the first scheme under that name), and a name containing the path
separator is rejected immediately with the invalid-name error and no
state change. -/
theorem combiner_add_duplicate_and_slash {P E : Type} (inst : PositionerI P E)
    (c : Combiner P) (n : String) (s s2 : Scheme)
    (hok : (Combiner.add inst c n s).1 = .ok ()) :
    (∃ tip, Combiner.add inst (Combiner.add inst c n s).2 n s2
        = (.error (.nameWasAlreadyTaken n tip), (Combiner.add inst c n s).2)) ∧
    ((Combiner.add inst c n s).2.schemes.filter (fun en => en.1 == n)).length = 1 ∧
    ((Combiner.add inst c n s).2.schemes.find? (fun en => en.1 == n)) = some (n, s) ∧
    (∀ (m : String) (s3 : Scheme) (c2 : Combiner P), containsSlash m = true →
      Combiner.add inst c2 m s3 = (.error (.invalidName m (addSlashTip c2.debugName)), c2)) := by
  unfold Combiner.add at hok
  cases hcs : containsSlash n with
  | true =>
    rw [hcs, if_pos rfl] at hok
    cases hok
  | false =>
    rw [hcs, if_neg Bool.false_ne_true] at hok
    cases hfind : c.schemes.find? (fun en => en.1 == n) with
    | some q =>
      rw [hfind] at hok
      cases hok
    | none =>
      rw [hfind] at hok
      have hc1 : (Combiner.add inst c n s).2 =
          { c with schemes := c.schemes ++ [(n, s)], lastScheme := some n,
                   positioner := inst.setLastScheme c.positioner n } := by
        unfold Combiner.add
        rw [hcs, if_neg Bool.false_ne_true, hfind]
        rfl
      have hfind2 : ((c.schemes ++ [(n, s)]).find? (fun en => en.1 == n)) = some (n, s) := by
        rw [List.find?_append, hfind]
        simp
      refine ⟨⟨addTakenTip c.debugName, ?_⟩, ?_, ?_, ?_⟩
      · rw [hc1]
        unfold Combiner.add
        rw [hcs, if_neg Bool.false_ne_true]
        show (if ((c.schemes ++ [(n, s)]).find? (fun en => en.1 == n)).isNone = true
            then _ else _) = _
        rw [hfind2]
        rfl
      · rw [hc1]
        have hfilter : c.schemes.filter (fun en => en.1 == n) = [] :=
          List.filter_eq_nil_iff.mpr (List.find?_eq_none.mp hfind)
        show ((c.schemes ++ [(n, s)]).filter (fun en => en.1 == n)).length = 1
        rw [List.filter_append, hfilter]
        simp
      · rw [hc1]
        show ((c.schemes ++ [(n, s)]).find? (fun en => en.1 == n)) = some (n, s)
        exact hfind2
      · intro m s3 c2 hm
        unfold Combiner.add
        rw [hm, if_pos rfl]

/-- Witness for C9: adding "a" twice to the empty combiner, plus the
rejected name "x/y". -/
theorem combiner_add_duplicate_and_slash_witness :
    (Combiner.add manualPosI cEmpty "a" (shapeIntoScheme sampleGate)).1 = .ok () ∧
    ((∃ tip, Combiner.add manualPosI (Combiner.add manualPosI cEmpty "a" (shapeIntoScheme sampleGate)).2
        "a" (shapeIntoScheme sampleGate)
        = (.error (.nameWasAlreadyTaken "a" tip),
           (Combiner.add manualPosI cEmpty "a" (shapeIntoScheme sampleGate)).2)) ∧
    ((Combiner.add manualPosI cEmpty "a" (shapeIntoScheme sampleGate)).2.schemes.filter
      (fun en => en.1 == "a")).length = 1 ∧
    ((Combiner.add manualPosI cEmpty "a" (shapeIntoScheme sampleGate)).2.schemes.find?
      (fun en => en.1 == "a")) = some ("a", shapeIntoScheme sampleGate) ∧
    (∀ (m : String) (s3 : Scheme) (c2 : Combiner ManualPos), containsSlash m = true →
      Combiner.add manualPosI c2 m s3
        = (.error (.invalidName m (addSlashTip c2.debugName)), c2))) :=
  ⟨rfl, combiner_add_duplicate_and_slash manualPosI cEmpty "a"
    (shapeIntoScheme sampleGate) (shapeIntoScheme sampleGate) rfl⟩
